import Mathlib

/-!
Shallow embedding of the tinyhcc compiler front end: the lexer of
`src/lexer.c` and the recursive-descent parser of `src/parser.c`, over the
data model of `include/lexer.h` and `include/parser.h`, together with
theorems checking the natural-language specification against the code.

Modeling conventions:
- C byte strings become `List Char`; reading a NUL-terminated buffer at an
  index becomes `getc`, which returns the NUL terminator out of range.
- Heap allocation is assumed to succeed (the C code aborts on allocation
  failure); nullable `Node*` pointers become `Option Node`.
- Loops and recursion are driven by an explicit fuel parameter; running out
  of fuel is an artifact outcome distinct from every outcome of the C code,
  so a non-fuel outcome at some fuel is the outcome of the C function.
-/

set_option maxHeartbeats 1000000

/-- Token kinds, from the `TokenType` enum in include/lexer.h. -/
inductive TokenType where
  | TT_EOF
  | TT_IDENTIFIER | TT_KEYWORD | TT_INT | TT_FLOAT | TT_STRING | TT_CHAR
  | TT_ADD | TT_SUB | TT_MUL | TT_DIV | TT_MOD | TT_POW | TT_NOT | TT_XOR
  | TT_INC | TT_DEC
  | TT_LSH | TT_RSH | TT_BNOT | TT_BXOR | TT_BAND | TT_BOR
  | TT_LT | TT_GT | TT_LTE | TT_GTE | TT_EQ | TT_NEQ | TT_AND | TT_OR
  | TT_ASSIGN | TT_ADDEQ | TT_SUBEQ | TT_MULEQ | TT_DIVEQ | TT_MODEQ
  | TT_LSHEQ | TT_RSHEQ | TT_ANDEQ | TT_OREQ | TT_XOREQ
  | TT_LPAREN | TT_RPAREN | TT_LBRACKET | TT_RBRACKET | TT_LBRACE | TT_RBRACE
  | TT_SEMICOLON | TT_COLON | TT_DOT | TT_COMMA | TT_ARROW | TT_ELLIPSIS
deriving DecidableEq, Repr

/-- A token, from `struct Token` in include/lexer.h. The `value` pointer is
NULL for operator and punctuation tokens, modeled as `Option (List Char)`. -/
structure Token where
  type : TokenType
  value : Option (List Char)
  index : Nat
  line : Nat
  col : Nat
  len : Nat
deriving DecidableEq, Repr

/-- The NUL byte, the C string terminator. -/
def charNul : Char := Char.ofNat 0

/-- Newline. -/
def charNL : Char := Char.ofNat 10

/-- Double quote. -/
def charQuote : Char := Char.ofNat 34

/-- Single quote. -/
def charApos : Char := Char.ofNat 39

/-- Backslash. -/
def charBackslash : Char := Char.ofNat 92

/-- Backtick (the power operator of the language). -/
def charBacktick : Char := Char.ofNat 96

/-- Opening curly brace. -/
def charLBrace : Char := Char.ofNat 123

/-- Closing curly brace. -/
def charRBrace : Char := Char.ofNat 125

/-- Reading byte `i` of a NUL-terminated C string. The lexer stops at the
terminator and never reads past it, so an out-of-range read is modeled as the
terminator itself. -/
def getc (s : List Char) (i : Nat) : Char := s.getD i charNul

/-- C `isdigit` on ASCII input. -/
def isdigitC (c : Char) : Bool := 48 ≤ c.toNat && c.toNat ≤ 57

/-- C `isalpha` on ASCII input. -/
def isalphaC (c : Char) : Bool :=
  (65 ≤ c.toNat && c.toNat ≤ 90) || (97 ≤ c.toNat && c.toNat ≤ 122)

/-- C `isalnum` on ASCII input. -/
def isalnumC (c : Char) : Bool := isalphaC c || isdigitC c

/-- C `isxdigit` on ASCII input. -/
def isxdigitC (c : Char) : Bool :=
  isdigitC c || (65 ≤ c.toNat && c.toNat ≤ 70) || (97 ≤ c.toNat && c.toNat ≤ 102)

/-- Value of a hexadecimal digit. -/
def hexVal (c : Char) : Nat :=
  if isdigitC c then c.toNat - 48
  else if 65 ≤ c.toNat && c.toNat ≤ 70 then c.toNat - 55
  else if 97 ≤ c.toNat && c.toNat ≤ 102 then c.toNat - 87
  else 0

/-- The simple escape table `escape_sequences` of src/lexer.c, keyed by the
character following the backslash. -/
def escLookup (c : Char) : Option Char :=
  if c = 'n' then some charNL
  else if c = 't' then some (Char.ofNat 9)
  else if c = 'r' then some (Char.ofNat 13)
  else if c = 'v' then some (Char.ofNat 11)
  else if c = 'b' then some (Char.ofNat 8)
  else if c = 'f' then some (Char.ofNat 12)
  else if c = 'a' then some (Char.ofNat 7)
  else if c = charBackslash then some charBackslash
  else if c = charQuote then some charQuote
  else if c = charApos then some charApos
  else none

/-- The hex-digit loop of `handleEscapeSequence`: consume up to `budget`
(initially 8) hex digits starting at `i`, returning the index one past the
last digit consumed and the accumulated value (what `strtoull` base 16
computes on the collected buffer). -/
def hexScan (s : List Char) (i : Nat) (budget : Nat) (acc : Nat) : Nat × Nat :=
  match budget with
  | 0 => (i, acc)
  | b + 1 =>
    if isxdigitC (getc s i) then hexScan s (i + 1) b (acc * 16 + hexVal (getc s i))
    else (i, acc)

/-- The octal-digit loop of `handleEscapeSequence`: consume up to `budget`
(initially 3) octal digits starting at `i`. -/
def octScan (s : List Char) (i : Nat) (budget : Nat) (acc : Nat) : Nat × Nat :=
  match budget with
  | 0 => (i, acc)
  | b + 1 =>
    if 48 ≤ (getc s i).toNat && (getc s i).toNat ≤ 55 then
      octScan s (i + 1) b (acc * 8 + ((getc s i).toNat - 48))
    else (i, acc)

/-- `handleEscapeSequence` from src/lexer.c. On entry `i` is the index of the
backslash; the function first steps past it. Returns `none` on a fatal escape
error, otherwise the produced byte (a one-character string), the new index and
the new column; the line counter is read only. The out-of-range warnings on
`\xHH` and `\NNN` escapes do not abort; the produced byte is the value cast to
`char`, i.e. reduced mod 256. -/
def handleEscapeSequence (s : List Char) (i col : Nat) :
    Option (List Char × Nat × Nat) :=
  let i1 := i + 1
  let col1 := col + 1
  if getc s i1 = charNul then none
  else
    match escLookup (getc s i1) with
    | some v => some ([v], i1 + 1, col1 + 1)
    | none =>
      if getc s i1 = 'x' then
        let i2 := i1 + 1
        let col2 := col1 + 1
        let r := hexScan s i2 8 0
        if r.1 = i2 then none
        else some ([Char.ofNat (r.2 % 256)], r.1, col2 + (r.1 - i2))
      else if isdigitC (getc s i1) then
        let r := octScan s i1 3 0
        if r.1 = i1 then none
        else some ([Char.ofNat (r.2 % 256)], r.1, col1 + (r.1 - i1))
      else
        some ([getc s i1], i1 + 1, col1 + 1)

/-- Result of the digit run of the `parse_number` block. -/
inductive NumScanRes where
  | nDone (i : Nat) (hasDot : Bool)
  | nErr
  | nNoFuel
deriving DecidableEq, Repr

/-- The digit-and-dot loop of the `parse_number` block of `tokenize`: consume
digits and at most one dot; a second dot is the fatal "Malformed float"
error. -/
def numScan (fuel : Nat) (s : List Char) (i : Nat) (hasDot : Bool) : NumScanRes :=
  match fuel with
  | 0 => .nNoFuel
  | fuel + 1 =>
    if isdigitC (getc s i) ∨ getc s i = '.' then
      if getc s i = '.' then
        if hasDot then .nErr else numScan fuel s (i + 1) true
      else numScan fuel s (i + 1) hasDot
    else .nDone i hasDot

/-- The identifier loop of `tokenize`: consume letters, digits and
underscores, returning the index one past the run. -/
def identScan (fuel : Nat) (s : List Char) (i : Nat) : Option Nat :=
  match fuel with
  | 0 => none
  | fuel + 1 =>
    if isalnumC (getc s i) ∨ getc s i = '_' then identScan fuel s (i + 1)
    else some i

/-- The line-comment loop of `tokenize`: advance to the next newline or the
terminator (the source updates neither line nor column here). -/
def skipLineComment (fuel : Nat) (s : List Char) (i : Nat) : Option Nat :=
  match fuel with
  | 0 => none
  | fuel + 1 =>
    if getc s i ≠ charNul ∧ getc s i ≠ charNL then skipLineComment fuel s (i + 1)
    else some i

/-- Result of the block-comment loop. -/
inductive SkipBlockRes where
  | bFound (i : Nat)
  | bEof
  | bNoFuel
deriving DecidableEq, Repr

/-- The block-comment loop of `tokenize`: `while (source[++i] && !(source[i]
== '*' && source[i+1] == '/'));`. On entry `i` is the index of the `*` that
opened the comment (the source has already done one `i++`). Pre-increments,
then stops at the terminator (fatal) or with `i` at the `*` of the closing
pair, after which the source does one more `i++`, leaving `i` at the closing
slash; `bFound` returns that index. -/
def skipBlockComment (fuel : Nat) (s : List Char) (i : Nat) : SkipBlockRes :=
  match fuel with
  | 0 => .bNoFuel
  | fuel + 1 =>
    let j := i + 1
    if getc s j = charNul then .bEof
    else if getc s j = '*' ∧ getc s (j + 1) = '/' then .bFound (j + 1)
    else skipBlockComment fuel s j

/-- Result of the string-literal content loop. -/
inductive StrScanRes where
  | sDone (v : List Char) (i : Nat) (col : Nat)
  | sErr
  | sNoFuel
deriving DecidableEq, Repr

/-- The string-literal content loop of `tokenize`: starting just past the
opening quote, copy bytes (decoding escape sequences) until the closing quote
or the terminator; the terminator is the fatal "Unterminated string literal"
error. `sDone` returns the decoded contents, the index of the closing quote
and the column at that index. The line counter is never updated here. -/
def strScan (fuel : Nat) (s : List Char) (i col : Nat) (acc : List Char) :
    StrScanRes :=
  match fuel with
  | 0 => .sNoFuel
  | fuel + 1 =>
    if getc s i = charNul then .sErr
    else if getc s i = charQuote then .sDone acc i col
    else if getc s i = charBackslash then
      match handleEscapeSequence s i col with
      | none => .sErr
      | some (v, i2, col2) => strScan fuel s i2 col2 (acc ++ v)
    else strScan fuel s (i + 1) (col + 1) (acc ++ [getc s i])

/-- The keyword table `keywords` of src/lexer.c. -/
def keywordList : List (List Char) :=
  ["if".data, "else".data, "while".data, "for".data, "switch".data,
   "case".data, "asm".data, "try".data, "catch".data, "throw".data,
   "break".data, "goto".data, "class".data, "union".data,
   "no_warn".data, "reg".data, "noreg".data, "static".data, "extern".data]

/-- Keyword test: `strcmp` of the collected lexeme against each table entry. -/
def isKeyword (v : List Char) : Bool := keywordList.contains v

/-- Result of a lex. `ok` is `tokenize` returning the token array; `err` is
`tokenize` returning NULL after a fatal error; `endNoReturn` is control
reaching the end of the function body with no return statement executed (the
token array as allocated at that point is recorded for the statement of
theorems, but the C caller receives no defined value); `noFuel` is the fuel
artifact of the embedding. -/
inductive LexRes where
  | ok (tokens : List Token)
  | err
  | endNoReturn (tokens : List Token)
  | noFuel
deriving DecidableEq, Repr

/-- Builder for value-less operator and punctuation tokens. In each such case
of `tokenize` the source advances `i` and `col` by `len − 1` while classifying
the token and records `index = i − len + 1` and `col = col − len + 1`, the
position of the token's first byte, then advances both by one more after
`appendToken`; equivalently the token carries the position at its first byte
and the scan resumes `len` bytes further on. -/
def opTok (ty : TokenType) (i line col len : Nat) : Token :=
  ⟨ty, none, i, line, col, len⟩

/-- The `parse_number` block of `tokenize` in src/lexer.c. The block is placed
after the `return tokens;` statement and is reached by `goto` from the two
numeric-literal cases of the scan loop. After appending the INT or FLOAT token
and updating `col`, control reaches the end of the function body: there is no
return statement and no jump back to the scanning loop (the closing brace of
the function body is missing in the file), so the scan stops and the token
array is never returned — the `endNoReturn` outcome. -/
def numberTail (fuel : Nat) (s : List Char) (i line col : Nat)
    (acc : List Token) : LexRes :=
  match numScan fuel s i false with
  | .nNoFuel => .noFuel
  | .nErr => .err
  | .nDone i2 hasDot =>
    let len := i2 - i
    let value := (s.drop i).take len
    .endNoReturn (acc ++ [⟨if hasDot then .TT_FLOAT else .TT_INT, some value, i, line, col, len⟩])

/-- The scanning loop of `tokenize` from src/lexer.c, one branch per `switch`
case, dispatching on the byte at `i`. On the terminator it appends the
end-of-input token and returns the array. -/
def tokLoop (fuel : Nat) (s : List Char) (i line col : Nat)
    (acc : List Token) : LexRes :=
  match fuel with
  | 0 => .noFuel
  | fuel + 1 =>
    let ch := getc s i
    if ch = charNul then
      .ok (acc ++ [⟨.TT_EOF, none, i, line, col, 0⟩])
    else if ch = Char.ofNat 9 ∨ ch = Char.ofNat 13 ∨ ch = ' ' then
      tokLoop fuel s (i + 1) line (col + 1) acc
    else if ch = charNL then
      tokLoop fuel s (i + 1) (line + 1) 1 acc
    else if ch = '+' then
      if getc s (i + 1) = '+' then
        tokLoop fuel s (i + 2) line (col + 2) (acc ++ [opTok .TT_INC i line col 2])
      else if getc s (i + 1) = '=' then
        tokLoop fuel s (i + 2) line (col + 2) (acc ++ [opTok .TT_ADDEQ i line col 2])
      else
        tokLoop fuel s (i + 1) line (col + 1) (acc ++ [opTok .TT_ADD i line col 1])
    else if ch = '-' then
      if getc s (i + 1) = '-' then
        tokLoop fuel s (i + 2) line (col + 2) (acc ++ [opTok .TT_DEC i line col 2])
      else if getc s (i + 1) = '=' then
        tokLoop fuel s (i + 2) line (col + 2) (acc ++ [opTok .TT_SUBEQ i line col 2])
      else if getc s (i + 1) = '>' then
        tokLoop fuel s (i + 2) line (col + 2) (acc ++ [opTok .TT_ARROW i line col 2])
      else
        tokLoop fuel s (i + 1) line (col + 1) (acc ++ [opTok .TT_SUB i line col 1])
    else if ch = '*' then
      if getc s (i + 1) = '=' then
        tokLoop fuel s (i + 2) line (col + 2) (acc ++ [opTok .TT_MULEQ i line col 2])
      else
        tokLoop fuel s (i + 1) line (col + 1) (acc ++ [opTok .TT_MUL i line col 1])
    else if ch = '/' then
      if getc s (i + 1) = '=' then
        tokLoop fuel s (i + 2) line (col + 2) (acc ++ [opTok .TT_DIVEQ i line col 2])
      else if getc s (i + 1) = '/' then
        match skipLineComment fuel s i with
        | none => .noFuel
        | some i2 => tokLoop fuel s i2 line col acc
      else if getc s (i + 1) = '*' then
        match skipBlockComment fuel s (i + 1) with
        | .bNoFuel => .noFuel
        | .bEof => .err
        | .bFound i2 => tokLoop fuel s i2 line col acc
      else
        tokLoop fuel s (i + 1) line (col + 1) (acc ++ [opTok .TT_DIV i line col 1])
    else if ch = '%' then
      if getc s (i + 1) = '=' then
        tokLoop fuel s (i + 2) line (col + 2) (acc ++ [opTok .TT_MODEQ i line col 2])
      else
        tokLoop fuel s (i + 1) line (col + 1) (acc ++ [opTok .TT_MOD i line col 1])
    else if ch = '<' then
      if getc s (i + 1) = '=' then
        tokLoop fuel s (i + 2) line (col + 2) (acc ++ [opTok .TT_LTE i line col 2])
      else if getc s (i + 1) = '<' then
        if getc s (i + 2) = '=' then
          tokLoop fuel s (i + 3) line (col + 3) (acc ++ [opTok .TT_LSHEQ i line col 3])
        else
          tokLoop fuel s (i + 2) line (col + 2) (acc ++ [opTok .TT_LSH i line col 2])
      else
        tokLoop fuel s (i + 1) line (col + 1) (acc ++ [opTok .TT_LT i line col 1])
    else if ch = '>' then
      if getc s (i + 1) = '=' then
        tokLoop fuel s (i + 2) line (col + 2) (acc ++ [opTok .TT_GTE i line col 2])
      else if getc s (i + 1) = '>' then
        if getc s (i + 2) = '=' then
          tokLoop fuel s (i + 3) line (col + 3) (acc ++ [opTok .TT_RSHEQ i line col 3])
        else
          tokLoop fuel s (i + 2) line (col + 2) (acc ++ [opTok .TT_RSH i line col 2])
      else
        tokLoop fuel s (i + 1) line (col + 1) (acc ++ [opTok .TT_GT i line col 1])
    else if ch = '~' then
      tokLoop fuel s (i + 1) line (col + 1) (acc ++ [opTok .TT_BNOT i line col 1])
    else if ch = '^' then
      if getc s (i + 1) = '=' then
        tokLoop fuel s (i + 2) line (col + 2) (acc ++ [opTok .TT_XOREQ i line col 2])
      else if getc s (i + 1) = '^' then
        tokLoop fuel s (i + 2) line (col + 2) (acc ++ [opTok .TT_XOR i line col 2])
      else
        tokLoop fuel s (i + 1) line (col + 1) (acc ++ [opTok .TT_BXOR i line col 1])
    else if ch = charBacktick then
      tokLoop fuel s (i + 1) line (col + 1) (acc ++ [opTok .TT_POW i line col 1])
    else if ch = '&' then
      if getc s (i + 1) = '&' then
        tokLoop fuel s (i + 2) line (col + 2) (acc ++ [opTok .TT_AND i line col 2])
      else if getc s (i + 1) = '=' then
        tokLoop fuel s (i + 2) line (col + 2) (acc ++ [opTok .TT_ANDEQ i line col 2])
      else
        tokLoop fuel s (i + 1) line (col + 1) (acc ++ [opTok .TT_BAND i line col 1])
    else if ch = '|' then
      if getc s (i + 1) = '|' then
        tokLoop fuel s (i + 2) line (col + 2) (acc ++ [opTok .TT_OR i line col 2])
      else if getc s (i + 1) = '=' then
        tokLoop fuel s (i + 2) line (col + 2) (acc ++ [opTok .TT_OREQ i line col 2])
      else
        tokLoop fuel s (i + 1) line (col + 1) (acc ++ [opTok .TT_BOR i line col 1])
    else if ch = '=' then
      if getc s (i + 1) = '=' then
        tokLoop fuel s (i + 2) line (col + 2) (acc ++ [opTok .TT_EQ i line col 2])
      else
        tokLoop fuel s (i + 1) line (col + 1) (acc ++ [opTok .TT_ASSIGN i line col 1])
    else if ch = '!' then
      if getc s (i + 1) = '=' then
        tokLoop fuel s (i + 2) line (col + 2) (acc ++ [opTok .TT_NEQ i line col 2])
      else
        tokLoop fuel s (i + 1) line (col + 1) (acc ++ [opTok .TT_NOT i line col 1])
    else if ch = '(' then
      tokLoop fuel s (i + 1) line (col + 1) (acc ++ [opTok .TT_LPAREN i line col 1])
    else if ch = ')' then
      tokLoop fuel s (i + 1) line (col + 1) (acc ++ [opTok .TT_RPAREN i line col 1])
    else if ch = charLBrace then
      tokLoop fuel s (i + 1) line (col + 1) (acc ++ [opTok .TT_LBRACE i line col 1])
    else if ch = charRBrace then
      tokLoop fuel s (i + 1) line (col + 1) (acc ++ [opTok .TT_RBRACE i line col 1])
    else if ch = '[' then
      tokLoop fuel s (i + 1) line (col + 1) (acc ++ [opTok .TT_LBRACKET i line col 1])
    else if ch = ']' then
      tokLoop fuel s (i + 1) line (col + 1) (acc ++ [opTok .TT_RBRACKET i line col 1])
    else if ch = ';' then
      tokLoop fuel s (i + 1) line (col + 1) (acc ++ [opTok .TT_SEMICOLON i line col 1])
    else if ch = ':' then
      tokLoop fuel s (i + 1) line (col + 1) (acc ++ [opTok .TT_COLON i line col 1])
    else if ch = '.' then
      if isdigitC (getc s (i + 1)) then
        numberTail fuel s i line col acc
      else if getc s (i + 1) = '.' ∧ getc s (i + 2) = '.' then
        tokLoop fuel s (i + 3) line (col + 3) (acc ++ [opTok .TT_ELLIPSIS i line col 3])
      else
        tokLoop fuel s (i + 1) line (col + 1) (acc ++ [opTok .TT_DOT i line col 1])
    else if ch = ',' then
      tokLoop fuel s (i + 1) line (col + 1) (acc ++ [opTok .TT_COMMA i line col 1])
    else if ch = charApos then
      let i1 := i + 1
      let col1 := col + 1
      if getc s i1 = charBackslash then
        match handleEscapeSequence s i1 col1 with
        | none => .err
        | some (v, i2, col2) =>
          if getc s i2 = charApos then
            tokLoop fuel s (i2 + 1) line (col2 + 1)
              (acc ++ [⟨.TT_CHAR, some v, i, line, col, i2 + 1 - i⟩])
          else .err
      else if getc s i1 ≠ charApos then
        if getc s (i1 + 1) = charApos then
          tokLoop fuel s (i1 + 2) line (col1 + 2)
            (acc ++ [⟨.TT_CHAR, some [getc s i1], i, line, col, i1 + 2 - i⟩])
        else .err
      else .err
    else if ch = charQuote then
      match strScan fuel s (i + 1) (col + 1) [] with
      | .sNoFuel => .noFuel
      | .sErr => .err
      | .sDone v j colj =>
        tokLoop fuel s (j + 1) line (colj + 1)
          (acc ++ [⟨.TT_STRING, some v, i, line, col, j + 1 - i⟩])
    else if isalphaC ch ∨ ch = '_' then
      match identScan fuel s i with
      | none => .noFuel
      | some i2 =>
        let len := i2 - i
        let value := (s.drop i).take len
        if isKeyword value then
          tokLoop fuel s i2 line (col + len)
            (acc ++ [⟨.TT_KEYWORD, some value, i, line, col, len⟩])
        else
          tokLoop fuel s i2 line (col + len)
            (acc ++ [⟨.TT_IDENTIFIER, some value, i, line, col, len⟩])
    else if isdigitC ch ∨ ch = '.' then
      numberTail fuel s i line col acc
    else .err

/-- `tokenize` from src/lexer.c. A NULL `source` or `file` argument is modeled
as `none` and fails immediately, before any byte of input is read; `file` is
otherwise used only for diagnostic messages. -/
def tokenize (fuel : Nat) (source file : Option (List Char)) : LexRes :=
  match source, file with
  | none, _ => .err
  | _, none => .err
  | some s, some _ => tokLoop fuel s 0 1 1 []

/-- AST nodes: `struct Node` with its `NodeType` tag and the per-variant
payload structs of include/parser.h, fused into one inductive. Only the
variants the parser constructs appear. `Node*` child pointers are
`Option Node` (`none` = NULL). `NT_NONE` is the tag parser.c gives the empty
statement; it is absent from the `NodeType` enum in the header (the payload
pointer of such a node is left uninitialized), and its variant here carries
nothing. -/
inductive Node where
  | NT_INT (value : Token)
  | NT_FLOAT (value : Token)
  | NT_STRING (value : Token)
  | NT_CHAR (value : Token)
  | NT_BINOP (lhs rhs : Option Node) (op : Token)
  | NT_UNARYOP (value : Option Node) (op : Token)
  | NT_VARACCESS (name : Token)
  | NT_FUNCCALL (function : Option Node) (arguments : List (Option Node))
  | NT_ARRAYACCESS (array index : Option Node)
  | NT_ACCESS (object : Option Node) (op member : Token)
  | NT_FOR (initializer condition increment body : Option Node)
  | NT_WHILE (condition body : Option Node)
  | NT_IF (conditions bodies : List (Option Node)) (elseCase : Option Node)
  | NT_COMPOUND (statements : List (Option Node))
  | NT_NONE

/-- Filler token for a read past the end of the token array, which is
undefined behavior in C and does not occur on end-of-input-terminated token
streams. -/
def noTok : Token := ⟨.TT_EOF, none, 0, 0, 0, 0⟩

/-- `struct ParserContext` of include/parser.h; the `file` and `source`
fields serve diagnostics only and are omitted. -/
structure Ctx where
  tokens : List Token
  index : Nat
  current : Token
deriving DecidableEq, Repr

/-- `advance` from include/parser.h: `ctx->current = ctx->tokens[++ctx->index]`. -/
def advance (ctx : Ctx) : Ctx :=
  ⟨ctx.tokens, ctx.index + 1, ctx.tokens.getD (ctx.index + 1) noTok⟩

/-- Result of a parser function that returns `Node*`: `res` carries the
returned pointer (`none` = NULL, the failure convention) and the context
state at return (the C context is mutated in place, so the state advanced by
a failing call persists); `noFuel` is the fuel artifact of the embedding. -/
inductive PRes where
  | res (node : Option Node) (ctx : Ctx)
  | noFuel

/-- Result of the call-argument loop inside parseAccessExpression: `args` is
normal loop exit, `abort` is a `return NULL;` out of the enclosing function. -/
inductive ARes where
  | args (arguments : List (Option Node)) (ctx : Ctx)
  | abort (ctx : Ctx)
  | aNoFuel

/-- Result of the else-if loop inside parseStatement: `iCases` is normal loop
exit with the accumulated parallel arrays, `iAbort` a `return NULL;` out of
parseStatement. -/
inductive IRes where
  | iCases (conditions bodies : List (Option Node)) (ctx : Ctx)
  | iAbort (ctx : Ctx)
  | iNoFuel

/-- Result of the statement-collecting loops (compound statement body and the
top-level loop of parse); neither loop can fail. -/
inductive CRes where
  | cStmts (statements : List (Option Node)) (ctx : Ctx)
  | cNoFuel

mutual

/-- `parseLiteralExpression` from src/parser.c: literals, identifiers, and
parenthesized expressions; anything else returns NULL. -/
def parseLiteralExpression : Nat → Ctx → PRes
  | 0, _ => .noFuel
  | fuel + 1, ctx =>
    if ctx.current.type = .TT_INT then
      .res (some (.NT_INT ctx.current)) (advance ctx)
    else if ctx.current.type = .TT_FLOAT then
      .res (some (.NT_FLOAT ctx.current)) (advance ctx)
    else if ctx.current.type = .TT_STRING then
      .res (some (.NT_STRING ctx.current)) (advance ctx)
    else if ctx.current.type = .TT_CHAR then
      .res (some (.NT_CHAR ctx.current)) (advance ctx)
    else if ctx.current.type = .TT_IDENTIFIER then
      .res (some (.NT_VARACCESS ctx.current)) (advance ctx)
    else if ctx.current.type = .TT_LPAREN then
      match parseExpression fuel (advance ctx) with
      | .noFuel => .noFuel
      | .res none c2 => .res none c2
      | .res (some e) c2 =>
        if c2.current.type = .TT_RPAREN then .res (some e) (advance c2)
        else .res none c2
    else .res none ctx

/-- `parseAccessExpression` from src/parser.c: a literal followed by the
postfix loop. -/
def parseAccessExpression : Nat → Ctx → PRes
  | 0, _ => .noFuel
  | fuel + 1, ctx =>
    match parseLiteralExpression fuel ctx with
    | .noFuel => .noFuel
    | .res access c1 => parseAccessLoop fuel access c1

/-- The postfix while-loop of `parseAccessExpression`: calls, indexing and
member access folded left onto `access` (which the source never checks for
NULL). A NULL sub-parse or missing punctuator returns NULL from
`parseAccessExpression` with the context as it then stands. In the call case,
a comma directly after `(`, directly after another comma, or directly before
`)` appends a NULL argument slot without consuming an expression. -/
def parseAccessLoop : Nat → Option Node → Ctx → PRes
  | 0, _, _ => .noFuel
  | fuel + 1, access, ctx =>
    if ctx.current.type = .TT_LPAREN then
      let c1 := advance ctx
      if c1.current.type = .TT_RPAREN then
        parseAccessLoop fuel (some (.NT_FUNCCALL access [])) (advance c1)
      else
        let first : ARes :=
          if c1.current.type = .TT_COMMA then .args [none] c1
          else
            match parseExpression fuel c1 with
            | .noFuel => .aNoFuel
            | .res none c2 => .abort c2
            | .res (some e) c2 => .args [some e] c2
        match first with
        | .aNoFuel => .noFuel
        | .abort c2 => .res none c2
        | .args args0 c2 =>
          match parseCallArgsLoop fuel args0 c2 with
          | .aNoFuel => .noFuel
          | .abort c3 => .res none c3
          | .args arguments c3 =>
            if c3.current.type = .TT_RPAREN then
              parseAccessLoop fuel (some (.NT_FUNCCALL access arguments)) (advance c3)
            else .res none c3
    else if ctx.current.type = .TT_LBRACKET then
      match parseExpression fuel (advance ctx) with
      | .noFuel => .noFuel
      | .res none c2 => .res none c2
      | .res (some idx) c2 =>
        if c2.current.type = .TT_RBRACKET then
          parseAccessLoop fuel (some (.NT_ARRAYACCESS access (some idx))) (advance c2)
        else .res none c2
    else if ctx.current.type = .TT_DOT ∨ ctx.current.type = .TT_ARROW then
      let op := ctx.current
      let c1 := advance ctx
      if c1.current.type = .TT_IDENTIFIER then
        parseAccessLoop fuel (some (.NT_ACCESS access op c1.current)) (advance c1)
      else .res none c1
    else .res access ctx

/-- The `while (COMMA)` argument loop of the call case of
`parseAccessExpression`: after each comma, another comma or the closing
parenthesis appends a NULL slot, otherwise an expression is parsed (a failed
expression returns NULL from the enclosing function). -/
def parseCallArgsLoop : Nat → List (Option Node) → Ctx → ARes
  | 0, _, _ => .aNoFuel
  | fuel + 1, arguments, ctx =>
    if ctx.current.type = .TT_COMMA then
      let c1 := advance ctx
      if c1.current.type = .TT_COMMA ∨ c1.current.type = .TT_RPAREN then
        parseCallArgsLoop fuel (arguments ++ [none]) c1
      else
        match parseExpression fuel c1 with
        | .noFuel => .aNoFuel
        | .res none c2 => .abort c2
        | .res (some e) c2 => parseCallArgsLoop fuel (arguments ++ [some e]) c2
    else .args arguments ctx

/-- `parseUnaryExpression` from src/parser.c. When the current token is a
prefix `-` or `*`, the source consumes it, recursively parses the operand,
returns NULL if the operand failed, and otherwise builds a
UnaryOperationNode into a local `res` that is never used: control falls
through to the final `return parseAccessExpression(ctx);`, so the unary node
is allocated and discarded (leaked in C, and absent from this pure model
because it never reaches the result). -/
def parseUnaryExpression : Nat → Ctx → PRes
  | 0, _ => .noFuel
  | fuel + 1, ctx =>
    if ctx.current.type = .TT_SUB ∨ ctx.current.type = .TT_MUL then
      match parseUnaryExpression fuel (advance ctx) with
      | .noFuel => .noFuel
      | .res none c2 => .res none c2
      | .res (some _) c2 => parseAccessExpression fuel c2
    else parseAccessExpression fuel ctx

/-- `parseFactorExpression` from src/parser.c. -/
def parseFactorExpression : Nat → Ctx → PRes
  | 0, _ => .noFuel
  | fuel + 1, ctx =>
    match parseUnaryExpression fuel ctx with
    | .noFuel => .noFuel
    | .res lhs c1 => parseFactorLoop fuel lhs c1

/-- The POW/LSH/RSH while-loop of `parseFactorExpression`; like every binary
level, neither lhs nor rhs is NULL-checked. -/
def parseFactorLoop : Nat → Option Node → Ctx → PRes
  | 0, _, _ => .noFuel
  | fuel + 1, lhs, ctx =>
    if ctx.current.type = .TT_POW ∨ ctx.current.type = .TT_LSH ∨
       ctx.current.type = .TT_RSH then
      let op := ctx.current
      match parseUnaryExpression fuel (advance ctx) with
      | .noFuel => .noFuel
      | .res rhs c2 => parseFactorLoop fuel (some (.NT_BINOP lhs rhs op)) c2
    else .res lhs ctx

/-- `parseTermExpression` from src/parser.c. -/
def parseTermExpression : Nat → Ctx → PRes
  | 0, _ => .noFuel
  | fuel + 1, ctx =>
    match parseFactorExpression fuel ctx with
    | .noFuel => .noFuel
    | .res lhs c1 => parseTermLoop fuel lhs c1

/-- The MUL/DIV/MOD while-loop of `parseTermExpression`. -/
def parseTermLoop : Nat → Option Node → Ctx → PRes
  | 0, _, _ => .noFuel
  | fuel + 1, lhs, ctx =>
    if ctx.current.type = .TT_MUL ∨ ctx.current.type = .TT_DIV ∨
       ctx.current.type = .TT_MOD then
      let op := ctx.current
      match parseFactorExpression fuel (advance ctx) with
      | .noFuel => .noFuel
      | .res rhs c2 => parseTermLoop fuel (some (.NT_BINOP lhs rhs op)) c2
    else .res lhs ctx

/-- `parseBinaryAndExpression` from src/parser.c. -/
def parseBinaryAndExpression : Nat → Ctx → PRes
  | 0, _ => .noFuel
  | fuel + 1, ctx =>
    match parseTermExpression fuel ctx with
    | .noFuel => .noFuel
    | .res lhs c1 => parseBinaryAndLoop fuel lhs c1

/-- The BAND while-loop of `parseBinaryAndExpression`. -/
def parseBinaryAndLoop : Nat → Option Node → Ctx → PRes
  | 0, _, _ => .noFuel
  | fuel + 1, lhs, ctx =>
    if ctx.current.type = .TT_BAND then
      let op := ctx.current
      match parseTermExpression fuel (advance ctx) with
      | .noFuel => .noFuel
      | .res rhs c2 => parseBinaryAndLoop fuel (some (.NT_BINOP lhs rhs op)) c2
    else .res lhs ctx

/-- `parseBinaryXorExpression` from src/parser.c. -/
def parseBinaryXorExpression : Nat → Ctx → PRes
  | 0, _ => .noFuel
  | fuel + 1, ctx =>
    match parseBinaryAndExpression fuel ctx with
    | .noFuel => .noFuel
    | .res lhs c1 => parseBinaryXorLoop fuel lhs c1

/-- The BXOR while-loop of `parseBinaryXorExpression`. -/
def parseBinaryXorLoop : Nat → Option Node → Ctx → PRes
  | 0, _, _ => .noFuel
  | fuel + 1, lhs, ctx =>
    if ctx.current.type = .TT_BXOR then
      let op := ctx.current
      match parseBinaryAndExpression fuel (advance ctx) with
      | .noFuel => .noFuel
      | .res rhs c2 => parseBinaryXorLoop fuel (some (.NT_BINOP lhs rhs op)) c2
    else .res lhs ctx

/-- `parseBinaryOrExpression` from src/parser.c. -/
def parseBinaryOrExpression : Nat → Ctx → PRes
  | 0, _ => .noFuel
  | fuel + 1, ctx =>
    match parseBinaryXorExpression fuel ctx with
    | .noFuel => .noFuel
    | .res lhs c1 => parseBinaryOrLoop fuel lhs c1

/-- The BOR while-loop of `parseBinaryOrExpression`. -/
def parseBinaryOrLoop : Nat → Option Node → Ctx → PRes
  | 0, _, _ => .noFuel
  | fuel + 1, lhs, ctx =>
    if ctx.current.type = .TT_BOR then
      let op := ctx.current
      match parseBinaryXorExpression fuel (advance ctx) with
      | .noFuel => .noFuel
      | .res rhs c2 => parseBinaryOrLoop fuel (some (.NT_BINOP lhs rhs op)) c2
    else .res lhs ctx

/-- `parseArithmeticExpression` from src/parser.c. -/
def parseArithmeticExpression : Nat → Ctx → PRes
  | 0, _ => .noFuel
  | fuel + 1, ctx =>
    match parseBinaryOrExpression fuel ctx with
    | .noFuel => .noFuel
    | .res lhs c1 => parseArithmeticLoop fuel lhs c1

/-- The ADD/SUB while-loop of `parseArithmeticExpression`. -/
def parseArithmeticLoop : Nat → Option Node → Ctx → PRes
  | 0, _, _ => .noFuel
  | fuel + 1, lhs, ctx =>
    if ctx.current.type = .TT_ADD ∨ ctx.current.type = .TT_SUB then
      let op := ctx.current
      match parseBinaryOrExpression fuel (advance ctx) with
      | .noFuel => .noFuel
      | .res rhs c2 => parseArithmeticLoop fuel (some (.NT_BINOP lhs rhs op)) c2
    else .res lhs ctx

/-- `parseComparisonExpression` from src/parser.c. -/
def parseComparisonExpression : Nat → Ctx → PRes
  | 0, _ => .noFuel
  | fuel + 1, ctx =>
    match parseArithmeticExpression fuel ctx with
    | .noFuel => .noFuel
    | .res lhs c1 => parseComparisonLoop fuel lhs c1

/-- The LT/GT/LTE/GTE while-loop of `parseComparisonExpression`. -/
def parseComparisonLoop : Nat → Option Node → Ctx → PRes
  | 0, _, _ => .noFuel
  | fuel + 1, lhs, ctx =>
    if ctx.current.type = .TT_LT ∨ ctx.current.type = .TT_GT ∨
       ctx.current.type = .TT_LTE ∨ ctx.current.type = .TT_GTE then
      let op := ctx.current
      match parseArithmeticExpression fuel (advance ctx) with
      | .noFuel => .noFuel
      | .res rhs c2 => parseComparisonLoop fuel (some (.NT_BINOP lhs rhs op)) c2
    else .res lhs ctx

/-- `parseEqualityExpression` from src/parser.c. -/
def parseEqualityExpression : Nat → Ctx → PRes
  | 0, _ => .noFuel
  | fuel + 1, ctx =>
    match parseComparisonExpression fuel ctx with
    | .noFuel => .noFuel
    | .res lhs c1 => parseEqualityLoop fuel lhs c1

/-- The EQ/NEQ while-loop of `parseEqualityExpression`. -/
def parseEqualityLoop : Nat → Option Node → Ctx → PRes
  | 0, _, _ => .noFuel
  | fuel + 1, lhs, ctx =>
    if ctx.current.type = .TT_EQ ∨ ctx.current.type = .TT_NEQ then
      let op := ctx.current
      match parseComparisonExpression fuel (advance ctx) with
      | .noFuel => .noFuel
      | .res rhs c2 => parseEqualityLoop fuel (some (.NT_BINOP lhs rhs op)) c2
    else .res lhs ctx

/-- `parseAndExpression` from src/parser.c. -/
def parseAndExpression : Nat → Ctx → PRes
  | 0, _ => .noFuel
  | fuel + 1, ctx =>
    match parseEqualityExpression fuel ctx with
    | .noFuel => .noFuel
    | .res lhs c1 => parseAndLoop fuel lhs c1

/-- The AND while-loop of `parseAndExpression`. -/
def parseAndLoop : Nat → Option Node → Ctx → PRes
  | 0, _, _ => .noFuel
  | fuel + 1, lhs, ctx =>
    if ctx.current.type = .TT_AND then
      let op := ctx.current
      match parseEqualityExpression fuel (advance ctx) with
      | .noFuel => .noFuel
      | .res rhs c2 => parseAndLoop fuel (some (.NT_BINOP lhs rhs op)) c2
    else .res lhs ctx

/-- `parseXorExpression` from src/parser.c. -/
def parseXorExpression : Nat → Ctx → PRes
  | 0, _ => .noFuel
  | fuel + 1, ctx =>
    match parseAndExpression fuel ctx with
    | .noFuel => .noFuel
    | .res lhs c1 => parseXorLoop fuel lhs c1

/-- The XOR while-loop of `parseXorExpression`. -/
def parseXorLoop : Nat → Option Node → Ctx → PRes
  | 0, _, _ => .noFuel
  | fuel + 1, lhs, ctx =>
    if ctx.current.type = .TT_XOR then
      let op := ctx.current
      match parseAndExpression fuel (advance ctx) with
      | .noFuel => .noFuel
      | .res rhs c2 => parseXorLoop fuel (some (.NT_BINOP lhs rhs op)) c2
    else .res lhs ctx

/-- `parseOrExpression` from src/parser.c. -/
def parseOrExpression : Nat → Ctx → PRes
  | 0, _ => .noFuel
  | fuel + 1, ctx =>
    match parseXorExpression fuel ctx with
    | .noFuel => .noFuel
    | .res lhs c1 => parseOrLoop fuel lhs c1

/-- The OR while-loop of `parseOrExpression`. -/
def parseOrLoop : Nat → Option Node → Ctx → PRes
  | 0, _, _ => .noFuel
  | fuel + 1, lhs, ctx =>
    if ctx.current.type = .TT_OR then
      let op := ctx.current
      match parseXorExpression fuel (advance ctx) with
      | .noFuel => .noFuel
      | .res rhs c2 => parseOrLoop fuel (some (.NT_BINOP lhs rhs op)) c2
    else .res lhs ctx

/-- `parseAssignmentExpression` from src/parser.c. Its operator set is
ASSIGN, LSHEQ, RSHEQ, MULEQ, DIVEQ, ANDEQ, OREQ, XOREQ, ADDEQ and SUBEQ;
MODEQ is absent in the source. -/
def parseAssignmentExpression : Nat → Ctx → PRes
  | 0, _ => .noFuel
  | fuel + 1, ctx =>
    match parseOrExpression fuel ctx with
    | .noFuel => .noFuel
    | .res lhs c1 => parseAssignmentLoop fuel lhs c1

/-- The assignment-operator while-loop of `parseAssignmentExpression`
(a left fold, like every level). -/
def parseAssignmentLoop : Nat → Option Node → Ctx → PRes
  | 0, _, _ => .noFuel
  | fuel + 1, lhs, ctx =>
    if ctx.current.type = .TT_ASSIGN ∨ ctx.current.type = .TT_LSHEQ ∨
       ctx.current.type = .TT_RSHEQ ∨ ctx.current.type = .TT_MULEQ ∨
       ctx.current.type = .TT_DIVEQ ∨ ctx.current.type = .TT_ANDEQ ∨
       ctx.current.type = .TT_OREQ ∨ ctx.current.type = .TT_XOREQ ∨
       ctx.current.type = .TT_ADDEQ ∨ ctx.current.type = .TT_SUBEQ then
      let op := ctx.current
      match parseOrExpression fuel (advance ctx) with
      | .noFuel => .noFuel
      | .res rhs c2 => parseAssignmentLoop fuel (some (.NT_BINOP lhs rhs op)) c2
    else .res lhs ctx

/-- `parseExpression` from src/parser.c. -/
def parseExpression : Nat → Ctx → PRes
  | 0, _ => .noFuel
  | fuel + 1, ctx => parseAssignmentExpression fuel ctx

/-- `parseVariableDeclerationOrExpression` from src/parser.c (variable
declarations are an unimplemented TODO there; it only forwards). -/
def parseVariableDeclerationOrExpression : Nat → Ctx → PRes
  | 0, _ => .noFuel
  | fuel + 1, ctx => parseExpression fuel ctx

/-- `parseStatement` from src/parser.c: dispatches on the current token. A
keyword other than if/while/for falls through the inner dispatch to the
expression path at the end of the function (`parseStatementTail`). In the
`if` case, the source does not NULL-check the first body. -/
def parseStatement : Nat → Ctx → PRes
  | 0, _ => .noFuel
  | fuel + 1, ctx =>
    if ctx.current.type = .TT_KEYWORD then
      if ctx.current.value = some "if".data then
        let c1 := advance ctx
        if c1.current.type = .TT_LPAREN then
          match parseExpression fuel (advance c1) with
          | .noFuel => .noFuel
          | .res none c3 => .res none c3
          | .res (some cond) c3 =>
            if c3.current.type = .TT_RPAREN then
              match parseStatement fuel (advance c3) with
              | .noFuel => .noFuel
              | .res body c5 =>
                match parseElseIfLoop fuel [some cond] [body] c5 with
                | .iNoFuel => .noFuel
                | .iAbort c6 => .res none c6
                | .iCases conds bodies c6 =>
                  if c6.current.type = .TT_KEYWORD ∧
                     c6.current.value = some "else".data then
                    match parseStatement fuel (advance c6) with
                    | .noFuel => .noFuel
                    | .res none c7 => .res none c7
                    | .res (some e) c7 => .res (some (.NT_IF conds bodies (some e))) c7
                  else .res (some (.NT_IF conds bodies none)) c6
            else .res none c3
        else .res none c1
      else if ctx.current.value = some "while".data then
        let c1 := advance ctx
        if c1.current.type = .TT_LPAREN then
          match parseExpression fuel (advance c1) with
          | .noFuel => .noFuel
          | .res none c3 => .res none c3
          | .res (some cond) c3 =>
            if c3.current.type = .TT_RPAREN then
              match parseStatement fuel (advance c3) with
              | .noFuel => .noFuel
              | .res none c5 => .res none c5
              | .res (some body) c5 =>
                .res (some (.NT_WHILE (some cond) (some body))) c5
            else .res none c3
        else .res none c1
      else if ctx.current.value = some "for".data then
        let c1 := advance ctx
        if c1.current.type = .TT_LPAREN then
          let c2 := advance c1
          if c2.current.type = .TT_SEMICOLON then
            parseForAfterInit fuel none c2
          else
            match parseVariableDeclerationOrExpression fuel c2 with
            | .noFuel => .noFuel
            | .res none c3 => .res none c3
            | .res (some ini) c3 => parseForAfterInit fuel (some ini) c3
        else .res none c1
      else parseStatementTail fuel ctx
    else if ctx.current.type = .TT_LBRACE then
      match parseCompoundLoop fuel [] (advance ctx) with
      | .cNoFuel => .noFuel
      | .cStmts stmts c2 =>
        if c2.current.type = .TT_EOF then .res none c2
        else .res (some (.NT_COMPOUND stmts)) (advance c2)
    else if ctx.current.type = .TT_SEMICOLON then
      .res (some .NT_NONE) (advance ctx)
    else parseStatementTail fuel ctx

/-- The `for` header after the initializer slot: require `;`, then the
optional condition slot. -/
def parseForAfterInit : Nat → Option Node → Ctx → PRes
  | 0, _, _ => .noFuel
  | fuel + 1, ini, ctx =>
    if ctx.current.type = .TT_SEMICOLON then
      let c1 := advance ctx
      if c1.current.type = .TT_SEMICOLON then
        parseForAfterCond fuel ini none c1
      else
        match parseExpression fuel c1 with
        | .noFuel => .noFuel
        | .res none c2 => .res none c2
        | .res (some cond) c2 => parseForAfterCond fuel ini (some cond) c2
    else .res none ctx

/-- The `for` header after the condition slot: require `;`, then the optional
increment slot. -/
def parseForAfterCond : Nat → Option Node → Option Node → Ctx → PRes
  | 0, _, _, _ => .noFuel
  | fuel + 1, ini, cond, ctx =>
    if ctx.current.type = .TT_SEMICOLON then
      let c1 := advance ctx
      if c1.current.type = .TT_RPAREN then
        parseForAfterIncr fuel ini cond none c1
      else
        match parseVariableDeclerationOrExpression fuel c1 with
        | .noFuel => .noFuel
        | .res none c2 => .res none c2
        | .res (some inc) c2 => parseForAfterIncr fuel ini cond (some inc) c2
    else .res none ctx

/-- The `for` header close and body: require `)`, parse the body statement,
build the NT_FOR node. -/
def parseForAfterIncr : Nat → Option Node → Option Node → Option Node → Ctx → PRes
  | 0, _, _, _, _ => .noFuel
  | fuel + 1, ini, cond, inc, ctx =>
    if ctx.current.type = .TT_RPAREN then
      match parseStatement fuel (advance ctx) with
      | .noFuel => .noFuel
      | .res none c2 => .res none c2
      | .res (some body) c2 => .res (some (.NT_FOR ini cond inc (some body))) c2
    else .res none ctx

/-- The `else if` chain loop of the `if` case of parseStatement. The loop
condition uses the one-token lookahead `tokens[index + 1]`. The chained case
condition is not NULL-checked (a NULL is stored in the conditions array); the
chained case body is. -/
def parseElseIfLoop : Nat → List (Option Node) → List (Option Node) → Ctx → IRes
  | 0, _, _, _ => .iNoFuel
  | fuel + 1, conds, bodies, ctx =>
    if (ctx.current.type = .TT_KEYWORD ∧ ctx.current.value = some "else".data) ∧
       ((ctx.tokens.getD (ctx.index + 1) noTok).type = .TT_KEYWORD ∧
        (ctx.tokens.getD (ctx.index + 1) noTok).value = some "if".data) then
      let c1 := advance (advance ctx)
      if c1.current.type = .TT_LPAREN then
        match parseExpression fuel (advance c1) with
        | .noFuel => .iNoFuel
        | .res caseCond c3 =>
          if c3.current.type = .TT_RPAREN then
            match parseStatement fuel (advance c3) with
            | .noFuel => .iNoFuel
            | .res none c5 => .iAbort c5
            | .res (some b) c5 =>
              parseElseIfLoop fuel (conds ++ [caseCond]) (bodies ++ [some b]) c5
          else .iAbort c3
      else .iAbort c1
    else .iCases conds bodies ctx

/-- The statement loop of the `{` case of parseStatement. The NULL check
after the recursive parseStatement call tests `statement` — the
just-allocated CompoundNode, never NULL — instead of `stmnt`, the parsed
statement, so a failed statement is appended as a NULL slot and the loop
continues; the loop exits only at a closing brace. -/
def parseCompoundLoop : Nat → List (Option Node) → Ctx → CRes
  | 0, _, _ => .cNoFuel
  | fuel + 1, stmts, ctx =>
    if ctx.current.type = .TT_RBRACE then .cStmts stmts ctx
    else
      match parseStatement fuel ctx with
      | .noFuel => .cNoFuel
      | .res s c2 => parseCompoundLoop fuel (stmts ++ [s]) c2

/-- The expression path closing parseStatement: parse an expression, require
a terminating semicolon, and return the expression itself as the statement. -/
def parseStatementTail : Nat → Ctx → PRes
  | 0, _ => .noFuel
  | fuel + 1, ctx =>
    match parseExpression fuel ctx with
    | .noFuel => .noFuel
    | .res none c1 => .res none c1
    | .res (some e) c1 =>
      if c1.current.type = .TT_SEMICOLON then .res (some e) (advance c1)
      else .res none c1

/-- The top-level statement loop of `parse`: collect statements until the
end-of-input token, stopping (break) at the first statement that fails; the
failing statement contributes nothing. -/
def parseTopLoop : Nat → List (Option Node) → Ctx → CRes
  | 0, _, _ => .cNoFuel
  | fuel + 1, stmts, ctx =>
    if ctx.current.type = .TT_EOF then .cStmts stmts ctx
    else
      match parseStatement fuel ctx with
      | .noFuel => .cNoFuel
      | .res none c2 => .cStmts stmts c2
      | .res (some s) c2 => parseTopLoop fuel (stmts ++ [some s]) c2

end

/-- `parse` from src/parser.c (the `file` and `source` arguments serve
diagnostics only and are omitted): primes the context — index −1 plus one
`advance`, so index 0 and `current = tokens[0]` — collects top-level
statements, and wraps whatever was accumulated in the unconditionally
allocated root NT_COMPOUND, which it always returns. -/
def parse (fuel : Nat) (tokens : List Token) : PRes :=
  let ctx : Ctx := ⟨tokens, 0, tokens.getD 0 noTok⟩
  match parseTopLoop fuel [] ctx with
  | .cNoFuel => .noFuel
  | .cStmts stmts c => .res (some (.NT_COMPOUND stmts)) c

/-- Identifier token as the lexer produces it for a one-byte name at byte `i`
of a one-line source. -/
def mkId (v : String) (i : Nat) : Token := ⟨.TT_IDENTIFIER, some v.data, i, 1, i + 1, 1⟩

/-- Integer-literal token for a one-digit literal at byte `i` of a one-line
source. -/
def mkInt (v : String) (i : Nat) : Token := ⟨.TT_INT, some v.data, i, 1, i + 1, 1⟩

/-- Operator or punctuation token of length one at byte `i` of a one-line
source. -/
def mkOp (ty : TokenType) (i : Nat) : Token := ⟨ty, none, i, 1, i + 1, 1⟩

/-- End-of-input token at byte `i` of a one-line source. -/
def mkEof (i : Nat) : Token := ⟨.TT_EOF, none, i, 1, i + 1, 0⟩

/-- The token stream the source `1+2*3;` is specified to lex to. -/
def toksArith : List Token :=
  [mkInt "1" 0, mkOp .TT_ADD 1, mkInt "2" 2, mkOp .TT_MUL 3, mkInt "3" 4,
   mkOp .TT_SEMICOLON 5, mkEof 6]

/-- The AST the statement `1+2*3;` is specified to parse to. -/
def astArith : Node :=
  .NT_COMPOUND [some (.NT_BINOP (some (.NT_INT (mkInt "1" 0)))
    (some (.NT_BINOP (some (.NT_INT (mkInt "2" 2))) (some (.NT_INT (mkInt "3" 4)))
      (mkOp .TT_MUL 3)))
    (mkOp .TT_ADD 1))]

/-- Token stream of `f(,);`. -/
def toksCallEmptySlots : List Token :=
  [mkId "f" 0, mkOp .TT_LPAREN 1, mkOp .TT_COMMA 2, mkOp .TT_RPAREN 3,
   mkOp .TT_SEMICOLON 4, mkEof 5]

/-- The AST the parser produces for `f(,);`: a call with two NULL argument
slots. -/
def astCallEmptySlots : Node :=
  .NT_COMPOUND [some (.NT_FUNCCALL (some (.NT_VARACCESS (mkId "f" 0))) [none, none])]

/-- Token stream of `f(x,,y);`. -/
def toksCallMidSlot : List Token :=
  [mkId "f" 0, mkOp .TT_LPAREN 1, mkId "x" 2, mkOp .TT_COMMA 3, mkOp .TT_COMMA 4,
   mkId "y" 5, mkOp .TT_RPAREN 6, mkOp .TT_SEMICOLON 7, mkEof 8]

/-- The AST the parser produces for `f(x,,y);`: the empty slot between the
two commas becomes a NULL argument between the two real ones. -/
def astCallMidSlot : Node :=
  .NT_COMPOUND [some (.NT_FUNCCALL (some (.NT_VARACCESS (mkId "f" 0)))
    [some (.NT_VARACCESS (mkId "x" 2)), none, some (.NT_VARACCESS (mkId "y" 5))])]

/-- Token stream of `-x;`. -/
def toksNegX : List Token :=
  [mkOp .TT_SUB 0, mkId "x" 1, mkOp .TT_SEMICOLON 2, mkEof 3]

/-- Parser context positioned at the start of `-x;`. -/
def ctxNegX : Ctx := ⟨toksNegX, 0, mkOp .TT_SUB 0⟩

/-- Parser context of `-x;` after the operand `x` has been parsed: at the
semicolon. -/
def ctxNegXAfter : Ctx := ⟨toksNegX, 2, mkOp .TT_SEMICOLON 2⟩

/-- Token stream of the source `{`: an opening brace directly followed by
end-of-input. -/
def toksBraceEof : List Token := [mkOp .TT_LBRACE 0, mkEof 1]

/-- Parser context positioned at the opening brace of `toksBraceEof`. -/
def ctxBraceEof : Ctx := ⟨toksBraceEof, 0, mkOp .TT_LBRACE 0⟩

/-- Token stream of `x; )`: one good statement, then a statement that fails
at the stray closing parenthesis. -/
def toksTrunc : List Token :=
  [mkId "x" 0, mkOp .TT_SEMICOLON 1, mkOp .TT_RPAREN 2, mkEof 3]

/-- Final parser context of `parse` on `toksTrunc`: the failing statement
left the context at the stray parenthesis. -/
def ctxTrunc : Ctx := ⟨toksTrunc, 2, mkOp .TT_RPAREN 2⟩

/-- The 10-byte source `"hi\n\x41"` (quotes and backslashes are source
bytes). -/
def srcEsc : List Char :=
  [charQuote, 'h', 'i', charBackslash, 'n', charBackslash, 'x', '4', '1', charQuote]

/-- The 4-byte source `"hi"`. -/
def srcHi : List Char := [charQuote, 'h', 'i', charQuote]

/-- The string token the lexer emits for `"hi"`: its recorded length is 4,
the full source extent including both quotes. -/
def strHiTok : Token := ⟨.TT_STRING, some "hi".data, 0, 1, 1, 4⟩

/-- Divergence of the top-level parser on a token stream, expressed through
the fuel artifact: no amount of fuel makes `parse` return. -/
def parseNeverReturns (tokens : List Token) : Prop :=
  ∀ fuel, parse fuel tokens = .noFuel

/-- Position discipline of string and character literal tokens relative to
the source: the token's span `[index, index + len)` starts at the opening
quote byte and ends at the closing quote byte, so the recorded length counts
both quotes (and is therefore at least 2). Other token kinds are
unconstrained. -/
def GoodTok (s : List Char) (t : Token) : Prop :=
  (t.type = .TT_STRING →
    getc s t.index = charQuote ∧ getc s (t.index + t.len - 1) = charQuote ∧ 2 ≤ t.len) ∧
  (t.type = .TT_CHAR →
    getc s t.index = charApos ∧ getc s (t.index + t.len - 1) = charApos ∧ 2 ≤ t.len)

mutual

/-- Does every argument slot of every call node inside the tree hold an
actual node, with no NULL placeholder? -/
def callArgsOk : Node → Bool
  | .NT_INT _ => true
  | .NT_FLOAT _ => true
  | .NT_STRING _ => true
  | .NT_CHAR _ => true
  | .NT_VARACCESS _ => true
  | .NT_BINOP lhs rhs _ => callArgsOkOpt lhs && callArgsOkOpt rhs
  | .NT_UNARYOP v _ => callArgsOkOpt v
  | .NT_FUNCCALL f arguments =>
    callArgsOkOpt f && arguments.all (fun a => a.isSome) && callArgsOkList arguments
  | .NT_ARRAYACCESS a i => callArgsOkOpt a && callArgsOkOpt i
  | .NT_ACCESS o _ _ => callArgsOkOpt o
  | .NT_FOR a b c d =>
    callArgsOkOpt a && callArgsOkOpt b && callArgsOkOpt c && callArgsOkOpt d
  | .NT_WHILE c b => callArgsOkOpt c && callArgsOkOpt b
  | .NT_IF cs bs e => callArgsOkList cs && callArgsOkList bs && callArgsOkOpt e
  | .NT_COMPOUND ss => callArgsOkList ss
  | .NT_NONE => true

/-- `callArgsOk` through a nullable child. -/
def callArgsOkOpt : Option Node → Bool
  | none => true
  | some n => callArgsOk n

/-- `callArgsOk` over a list of nullable children. -/
def callArgsOkList : List (Option Node) → Bool
  | [] => true
  | a :: rest => callArgsOkOpt a && callArgsOkList rest

end

theorem parseLiteralExpression_eof (fuel : Nat) (ctx : Ctx)
    (h : ctx.current.type = .TT_EOF) :
    parseLiteralExpression fuel ctx = .noFuel ∨
      parseLiteralExpression fuel ctx = .res none ctx := by
  cases fuel with
  | zero => exact Or.inl rfl
  | succ fuel => right; simp [parseLiteralExpression, h]

theorem parseAccessLoop_eof (fuel : Nat) (acc : Option Node) (ctx : Ctx)
    (h : ctx.current.type = .TT_EOF) :
    parseAccessLoop fuel acc ctx = .noFuel ∨
      parseAccessLoop fuel acc ctx = .res acc ctx := by
  cases fuel with
  | zero => exact Or.inl rfl
  | succ fuel => right; simp [parseAccessLoop, h]

theorem parseAccessExpression_eof (fuel : Nat) (ctx : Ctx)
    (h : ctx.current.type = .TT_EOF) :
    parseAccessExpression fuel ctx = .noFuel ∨
      parseAccessExpression fuel ctx = .res none ctx := by
  cases fuel with
  | zero => exact Or.inl rfl
  | succ fuel =>
    rcases parseLiteralExpression_eof fuel ctx h with hl | hl
    · left; simp [parseAccessExpression, hl]
    · have hx : parseAccessExpression (fuel + 1) ctx = parseAccessLoop fuel none ctx := by
        simp [parseAccessExpression, hl]
      rw [hx]; exact parseAccessLoop_eof fuel none ctx h

theorem parseUnaryExpression_eof (fuel : Nat) (ctx : Ctx)
    (h : ctx.current.type = .TT_EOF) :
    parseUnaryExpression fuel ctx = .noFuel ∨
      parseUnaryExpression fuel ctx = .res none ctx := by
  cases fuel with
  | zero => exact Or.inl rfl
  | succ fuel =>
    have hx : parseUnaryExpression (fuel + 1) ctx = parseAccessExpression fuel ctx := by
      simp [parseUnaryExpression, h]
    rw [hx]; exact parseAccessExpression_eof fuel ctx h

theorem parseFactorLoop_eof (fuel : Nat) (acc : Option Node) (ctx : Ctx)
    (h : ctx.current.type = .TT_EOF) :
    parseFactorLoop fuel acc ctx = .noFuel ∨ parseFactorLoop fuel acc ctx = .res acc ctx := by
  cases fuel with
  | zero => exact Or.inl rfl
  | succ fuel => right; simp [parseFactorLoop, h]

theorem parseFactorExpression_eof (fuel : Nat) (ctx : Ctx)
    (h : ctx.current.type = .TT_EOF) :
    parseFactorExpression fuel ctx = .noFuel ∨ parseFactorExpression fuel ctx = .res none ctx := by
  cases fuel with
  | zero => exact Or.inl rfl
  | succ fuel =>
    rcases parseUnaryExpression_eof fuel ctx h with hn | hn
    · left; simp [parseFactorExpression, hn]
    · have hx : parseFactorExpression (fuel + 1) ctx = parseFactorLoop fuel none ctx := by
        simp [parseFactorExpression, hn]
      rw [hx]; exact parseFactorLoop_eof fuel none ctx h

theorem parseTermLoop_eof (fuel : Nat) (acc : Option Node) (ctx : Ctx)
    (h : ctx.current.type = .TT_EOF) :
    parseTermLoop fuel acc ctx = .noFuel ∨ parseTermLoop fuel acc ctx = .res acc ctx := by
  cases fuel with
  | zero => exact Or.inl rfl
  | succ fuel => right; simp [parseTermLoop, h]

theorem parseTermExpression_eof (fuel : Nat) (ctx : Ctx)
    (h : ctx.current.type = .TT_EOF) :
    parseTermExpression fuel ctx = .noFuel ∨ parseTermExpression fuel ctx = .res none ctx := by
  cases fuel with
  | zero => exact Or.inl rfl
  | succ fuel =>
    rcases parseFactorExpression_eof fuel ctx h with hn | hn
    · left; simp [parseTermExpression, hn]
    · have hx : parseTermExpression (fuel + 1) ctx = parseTermLoop fuel none ctx := by
        simp [parseTermExpression, hn]
      rw [hx]; exact parseTermLoop_eof fuel none ctx h

theorem parseBinaryAndLoop_eof (fuel : Nat) (acc : Option Node) (ctx : Ctx)
    (h : ctx.current.type = .TT_EOF) :
    parseBinaryAndLoop fuel acc ctx = .noFuel ∨ parseBinaryAndLoop fuel acc ctx = .res acc ctx := by
  cases fuel with
  | zero => exact Or.inl rfl
  | succ fuel => right; simp [parseBinaryAndLoop, h]

theorem parseBinaryAndExpression_eof (fuel : Nat) (ctx : Ctx)
    (h : ctx.current.type = .TT_EOF) :
    parseBinaryAndExpression fuel ctx = .noFuel ∨ parseBinaryAndExpression fuel ctx = .res none ctx := by
  cases fuel with
  | zero => exact Or.inl rfl
  | succ fuel =>
    rcases parseTermExpression_eof fuel ctx h with hn | hn
    · left; simp [parseBinaryAndExpression, hn]
    · have hx : parseBinaryAndExpression (fuel + 1) ctx = parseBinaryAndLoop fuel none ctx := by
        simp [parseBinaryAndExpression, hn]
      rw [hx]; exact parseBinaryAndLoop_eof fuel none ctx h

theorem parseBinaryXorLoop_eof (fuel : Nat) (acc : Option Node) (ctx : Ctx)
    (h : ctx.current.type = .TT_EOF) :
    parseBinaryXorLoop fuel acc ctx = .noFuel ∨ parseBinaryXorLoop fuel acc ctx = .res acc ctx := by
  cases fuel with
  | zero => exact Or.inl rfl
  | succ fuel => right; simp [parseBinaryXorLoop, h]

theorem parseBinaryXorExpression_eof (fuel : Nat) (ctx : Ctx)
    (h : ctx.current.type = .TT_EOF) :
    parseBinaryXorExpression fuel ctx = .noFuel ∨ parseBinaryXorExpression fuel ctx = .res none ctx := by
  cases fuel with
  | zero => exact Or.inl rfl
  | succ fuel =>
    rcases parseBinaryAndExpression_eof fuel ctx h with hn | hn
    · left; simp [parseBinaryXorExpression, hn]
    · have hx : parseBinaryXorExpression (fuel + 1) ctx = parseBinaryXorLoop fuel none ctx := by
        simp [parseBinaryXorExpression, hn]
      rw [hx]; exact parseBinaryXorLoop_eof fuel none ctx h

theorem parseBinaryOrLoop_eof (fuel : Nat) (acc : Option Node) (ctx : Ctx)
    (h : ctx.current.type = .TT_EOF) :
    parseBinaryOrLoop fuel acc ctx = .noFuel ∨ parseBinaryOrLoop fuel acc ctx = .res acc ctx := by
  cases fuel with
  | zero => exact Or.inl rfl
  | succ fuel => right; simp [parseBinaryOrLoop, h]

theorem parseBinaryOrExpression_eof (fuel : Nat) (ctx : Ctx)
    (h : ctx.current.type = .TT_EOF) :
    parseBinaryOrExpression fuel ctx = .noFuel ∨ parseBinaryOrExpression fuel ctx = .res none ctx := by
  cases fuel with
  | zero => exact Or.inl rfl
  | succ fuel =>
    rcases parseBinaryXorExpression_eof fuel ctx h with hn | hn
    · left; simp [parseBinaryOrExpression, hn]
    · have hx : parseBinaryOrExpression (fuel + 1) ctx = parseBinaryOrLoop fuel none ctx := by
        simp [parseBinaryOrExpression, hn]
      rw [hx]; exact parseBinaryOrLoop_eof fuel none ctx h

theorem parseArithmeticLoop_eof (fuel : Nat) (acc : Option Node) (ctx : Ctx)
    (h : ctx.current.type = .TT_EOF) :
    parseArithmeticLoop fuel acc ctx = .noFuel ∨ parseArithmeticLoop fuel acc ctx = .res acc ctx := by
  cases fuel with
  | zero => exact Or.inl rfl
  | succ fuel => right; simp [parseArithmeticLoop, h]

theorem parseArithmeticExpression_eof (fuel : Nat) (ctx : Ctx)
    (h : ctx.current.type = .TT_EOF) :
    parseArithmeticExpression fuel ctx = .noFuel ∨ parseArithmeticExpression fuel ctx = .res none ctx := by
  cases fuel with
  | zero => exact Or.inl rfl
  | succ fuel =>
    rcases parseBinaryOrExpression_eof fuel ctx h with hn | hn
    · left; simp [parseArithmeticExpression, hn]
    · have hx : parseArithmeticExpression (fuel + 1) ctx = parseArithmeticLoop fuel none ctx := by
        simp [parseArithmeticExpression, hn]
      rw [hx]; exact parseArithmeticLoop_eof fuel none ctx h

theorem parseComparisonLoop_eof (fuel : Nat) (acc : Option Node) (ctx : Ctx)
    (h : ctx.current.type = .TT_EOF) :
    parseComparisonLoop fuel acc ctx = .noFuel ∨ parseComparisonLoop fuel acc ctx = .res acc ctx := by
  cases fuel with
  | zero => exact Or.inl rfl
  | succ fuel => right; simp [parseComparisonLoop, h]

theorem parseComparisonExpression_eof (fuel : Nat) (ctx : Ctx)
    (h : ctx.current.type = .TT_EOF) :
    parseComparisonExpression fuel ctx = .noFuel ∨ parseComparisonExpression fuel ctx = .res none ctx := by
  cases fuel with
  | zero => exact Or.inl rfl
  | succ fuel =>
    rcases parseArithmeticExpression_eof fuel ctx h with hn | hn
    · left; simp [parseComparisonExpression, hn]
    · have hx : parseComparisonExpression (fuel + 1) ctx = parseComparisonLoop fuel none ctx := by
        simp [parseComparisonExpression, hn]
      rw [hx]; exact parseComparisonLoop_eof fuel none ctx h

theorem parseEqualityLoop_eof (fuel : Nat) (acc : Option Node) (ctx : Ctx)
    (h : ctx.current.type = .TT_EOF) :
    parseEqualityLoop fuel acc ctx = .noFuel ∨ parseEqualityLoop fuel acc ctx = .res acc ctx := by
  cases fuel with
  | zero => exact Or.inl rfl
  | succ fuel => right; simp [parseEqualityLoop, h]

theorem parseEqualityExpression_eof (fuel : Nat) (ctx : Ctx)
    (h : ctx.current.type = .TT_EOF) :
    parseEqualityExpression fuel ctx = .noFuel ∨ parseEqualityExpression fuel ctx = .res none ctx := by
  cases fuel with
  | zero => exact Or.inl rfl
  | succ fuel =>
    rcases parseComparisonExpression_eof fuel ctx h with hn | hn
    · left; simp [parseEqualityExpression, hn]
    · have hx : parseEqualityExpression (fuel + 1) ctx = parseEqualityLoop fuel none ctx := by
        simp [parseEqualityExpression, hn]
      rw [hx]; exact parseEqualityLoop_eof fuel none ctx h

theorem parseAndLoop_eof (fuel : Nat) (acc : Option Node) (ctx : Ctx)
    (h : ctx.current.type = .TT_EOF) :
    parseAndLoop fuel acc ctx = .noFuel ∨ parseAndLoop fuel acc ctx = .res acc ctx := by
  cases fuel with
  | zero => exact Or.inl rfl
  | succ fuel => right; simp [parseAndLoop, h]

theorem parseAndExpression_eof (fuel : Nat) (ctx : Ctx)
    (h : ctx.current.type = .TT_EOF) :
    parseAndExpression fuel ctx = .noFuel ∨ parseAndExpression fuel ctx = .res none ctx := by
  cases fuel with
  | zero => exact Or.inl rfl
  | succ fuel =>
    rcases parseEqualityExpression_eof fuel ctx h with hn | hn
    · left; simp [parseAndExpression, hn]
    · have hx : parseAndExpression (fuel + 1) ctx = parseAndLoop fuel none ctx := by
        simp [parseAndExpression, hn]
      rw [hx]; exact parseAndLoop_eof fuel none ctx h

theorem parseXorLoop_eof (fuel : Nat) (acc : Option Node) (ctx : Ctx)
    (h : ctx.current.type = .TT_EOF) :
    parseXorLoop fuel acc ctx = .noFuel ∨ parseXorLoop fuel acc ctx = .res acc ctx := by
  cases fuel with
  | zero => exact Or.inl rfl
  | succ fuel => right; simp [parseXorLoop, h]

theorem parseXorExpression_eof (fuel : Nat) (ctx : Ctx)
    (h : ctx.current.type = .TT_EOF) :
    parseXorExpression fuel ctx = .noFuel ∨ parseXorExpression fuel ctx = .res none ctx := by
  cases fuel with
  | zero => exact Or.inl rfl
  | succ fuel =>
    rcases parseAndExpression_eof fuel ctx h with hn | hn
    · left; simp [parseXorExpression, hn]
    · have hx : parseXorExpression (fuel + 1) ctx = parseXorLoop fuel none ctx := by
        simp [parseXorExpression, hn]
      rw [hx]; exact parseXorLoop_eof fuel none ctx h

theorem parseOrLoop_eof (fuel : Nat) (acc : Option Node) (ctx : Ctx)
    (h : ctx.current.type = .TT_EOF) :
    parseOrLoop fuel acc ctx = .noFuel ∨ parseOrLoop fuel acc ctx = .res acc ctx := by
  cases fuel with
  | zero => exact Or.inl rfl
  | succ fuel => right; simp [parseOrLoop, h]

theorem parseOrExpression_eof (fuel : Nat) (ctx : Ctx)
    (h : ctx.current.type = .TT_EOF) :
    parseOrExpression fuel ctx = .noFuel ∨ parseOrExpression fuel ctx = .res none ctx := by
  cases fuel with
  | zero => exact Or.inl rfl
  | succ fuel =>
    rcases parseXorExpression_eof fuel ctx h with hn | hn
    · left; simp [parseOrExpression, hn]
    · have hx : parseOrExpression (fuel + 1) ctx = parseOrLoop fuel none ctx := by
        simp [parseOrExpression, hn]
      rw [hx]; exact parseOrLoop_eof fuel none ctx h

theorem parseAssignmentLoop_eof (fuel : Nat) (acc : Option Node) (ctx : Ctx)
    (h : ctx.current.type = .TT_EOF) :
    parseAssignmentLoop fuel acc ctx = .noFuel ∨ parseAssignmentLoop fuel acc ctx = .res acc ctx := by
  cases fuel with
  | zero => exact Or.inl rfl
  | succ fuel => right; simp [parseAssignmentLoop, h]

theorem parseAssignmentExpression_eof (fuel : Nat) (ctx : Ctx)
    (h : ctx.current.type = .TT_EOF) :
    parseAssignmentExpression fuel ctx = .noFuel ∨ parseAssignmentExpression fuel ctx = .res none ctx := by
  cases fuel with
  | zero => exact Or.inl rfl
  | succ fuel =>
    rcases parseOrExpression_eof fuel ctx h with hn | hn
    · left; simp [parseAssignmentExpression, hn]
    · have hx : parseAssignmentExpression (fuel + 1) ctx = parseAssignmentLoop fuel none ctx := by
        simp [parseAssignmentExpression, hn]
      rw [hx]; exact parseAssignmentLoop_eof fuel none ctx h

theorem parseExpression_eof (fuel : Nat) (ctx : Ctx)
    (h : ctx.current.type = .TT_EOF) :
    parseExpression fuel ctx = .noFuel ∨ parseExpression fuel ctx = .res none ctx := by
  cases fuel with
  | zero => exact Or.inl rfl
  | succ fuel =>
    have hx : parseExpression (fuel + 1) ctx = parseAssignmentExpression fuel ctx := by
      simp [parseExpression]
    rw [hx]; exact parseAssignmentExpression_eof fuel ctx h

theorem parseStatementTail_eof (fuel : Nat) (ctx : Ctx)
    (h : ctx.current.type = .TT_EOF) :
    parseStatementTail fuel ctx = .noFuel ∨ parseStatementTail fuel ctx = .res none ctx := by
  cases fuel with
  | zero => exact Or.inl rfl
  | succ fuel =>
    rcases parseExpression_eof fuel ctx h with he | he
    · left; simp [parseStatementTail, he]
    · right; simp [parseStatementTail, he]

theorem parseStatement_eof (fuel : Nat) (ctx : Ctx)
    (h : ctx.current.type = .TT_EOF) :
    parseStatement fuel ctx = .noFuel ∨ parseStatement fuel ctx = .res none ctx := by
  cases fuel with
  | zero => exact Or.inl rfl
  | succ fuel =>
    have hx : parseStatement (fuel + 1) ctx = parseStatementTail fuel ctx := by
      simp [parseStatement, h]
    rw [hx]; exact parseStatementTail_eof fuel ctx h

theorem parseCompoundLoop_eof (fuel : Nat) (ctx : Ctx)
    (h : ctx.current.type = .TT_EOF) :
    ∀ stmts, parseCompoundLoop fuel stmts ctx = .cNoFuel := by
  induction fuel with
  | zero => intro stmts; rfl
  | succ fuel ih =>
    intro stmts
    rcases parseStatement_eof fuel ctx h with hs | hs
    · simp [parseCompoundLoop, h, hs]
    · simp only [parseCompoundLoop]
      rw [if_neg (by simp [h]), hs]
      exact ih (stmts ++ [none])

theorem parseStatement_braceEof (fuel : Nat) :
    parseStatement fuel ctxBraceEof = .noFuel := by
  cases fuel with
  | zero => rfl
  | succ fuel =>
    have hadv : advance ctxBraceEof = ⟨toksBraceEof, 1, mkEof 1⟩ := by
      simp [advance, ctxBraceEof, toksBraceEof]
    have h1 : (⟨toksBraceEof, 1, mkEof 1⟩ : Ctx).current.type = .TT_EOF := rfl
    have hc := parseCompoundLoop_eof fuel ⟨toksBraceEof, 1, mkEof 1⟩ h1 []
    rw [parseStatement, if_neg (by decide), if_pos (by decide), hadv, hc]

theorem parse_braceEof (fuel : Nat) : parse fuel toksBraceEof = .noFuel := by
  cases fuel with
  | zero => rfl
  | succ fuel =>
    have hctx : toksBraceEof.getD 0 noTok = mkOp .TT_LBRACE 0 := by decide
    have hs : parseStatement fuel ⟨toksBraceEof, 0, mkOp .TT_LBRACE 0⟩ = .noFuel :=
      parseStatement_braceEof fuel
    simp only [parse, hctx]
    rw [parseTopLoop, if_neg (by decide), hs]

theorem parseTopLoop_shape (fuel : Nat) :
    ∀ stmts ctx out c, parseTopLoop fuel stmts ctx = .cStmts out c →
      (∃ tail, out = stmts ++ tail ∧ ∀ x ∈ tail, x ≠ none) ∧
      (c.current.type = .TT_EOF ∨
        ∃ f2 cPre, parseStatement f2 cPre = .res none c) := by
  induction fuel with
  | zero => intro stmts ctx out c h; exact absurd h (by simp [parseTopLoop])
  | succ fuel ih =>
    intro stmts ctx out c h
    rw [parseTopLoop] at h
    by_cases heof : ctx.current.type = .TT_EOF
    · rw [if_pos heof] at h
      injection h with h1 h2
      subst h1; subst h2
      exact ⟨⟨[], by simp⟩, Or.inl heof⟩
    · rw [if_neg heof] at h
      rcases hps : parseStatement fuel ctx with ⟨s, c2⟩ | _
      · rw [hps] at h
        cases s with
        | none =>
          injection h with h1 h2
          subst h1; subst h2
          exact ⟨⟨[], by simp⟩, Or.inr ⟨fuel, ctx, hps⟩⟩
        | some s =>
          rcases ih _ _ _ _ h with ⟨⟨tail, htail, hsome⟩, hstop⟩
          refine ⟨⟨[some s] ++ tail, by simp [htail], ?_⟩, hstop⟩
          intro x hx
          rcases List.mem_append.1 hx with hx | hx
          · simp at hx; subst hx; simp
          · exact hsome x hx
      · rw [hps] at h; exact absurd h (by simp)

/-- C1: the claim says every successful lex ends in exactly one end-of-input
sentinel, and that this holds in particular for inputs containing numeric
literals. The code breaks the numeric-literal part: the `parse_number` block
sits after `return tokens;` with no jump back to the scan loop (and the
function body is never closed), so on the source `1` — whatever the fuel —
`tokenize` appends the INT token and then control reaches the end of the
function without appending any end-of-input sentinel and without returning
the token array. -/
theorem tokenize_numeric_literal_never_returns :
    ∀ fuel, tokenize (fuel + 4) (some "1".data) (some "f".data) =
      .endNoReturn [⟨.TT_INT, some "1".data, 0, 1, 1, 1⟩] :=
  fun _ => rfl

/-- C2: the claim says lexing then parsing `1+2*3;` yields a root Compound
holding one BinaryOp `+` whose right child is BinaryOp `*` over 2 and 3. The
parser half is exactly right: on the token stream this source is specified to
lex to, `parse` produces precisely that tree. But the lexer half fails: on
the source bytes `1+2*3;` tokenize falls off the end of the function after
lexing the first numeric literal (for any fuel), so the composition never
sees a token array. -/
theorem arith_lex_and_parse :
    (∀ fuel, tokenize (fuel + 9) (some "1+2*3;".data) (some "f".data) =
        .endNoReturn [⟨.TT_INT, some "1".data, 0, 1, 1, 1⟩]) ∧
    parse 40 toksArith = .res (some astArith) ⟨toksArith, 6, mkEof 6⟩ :=
  ⟨fun _ => rfl, rfl⟩

/-- C3: when the current token is a prefix `-` or `*`, parseUnaryExpression
consumes the operator and recursively parses the operand; if the operand
parse succeeds (with context `c2`), the function returns exactly the result
of parseAccessExpression on the remaining stream `c2`, so the UnaryOp node it
allocated never reaches the caller; if the operand parse fails, it returns
NULL. Either way the allocated UnaryOp node is discarded. -/
theorem parseUnary_returns_parseAccess (fuel : Nat) (ctx : Ctx)
    (hop : ctx.current.type = .TT_SUB ∨ ctx.current.type = .TT_MUL) :
    (∀ e c2, parseUnaryExpression fuel (advance ctx) = .res (some e) c2 →
        parseUnaryExpression (fuel + 1) ctx = parseAccessExpression fuel c2) ∧
    (∀ c2, parseUnaryExpression fuel (advance ctx) = .res none c2 →
        parseUnaryExpression (fuel + 1) ctx = .res none c2) := by
  constructor
  · intro e c2 hrec
    rcases hop with h | h <;> simp [parseUnaryExpression, h, hrec]
  · intro c2 hrec
    rcases hop with h | h <;> simp [parseUnaryExpression, h, hrec]

/-- Witness for C3 on the stream of `-x;`: the operand `x` parses, and
parseUnaryExpression returns what parseAccessExpression says about the
remaining stream (positioned at the semicolon) — not a UnaryOp node. -/
theorem parseUnary_returns_parseAccess_witness :
    parseUnaryExpression 30 ctxNegX = parseAccessExpression 29 ctxNegXAfter :=
  (parseUnary_returns_parseAccess 29 ctxNegX (Or.inl rfl)).1
    (.NT_VARACCESS (mkId "x" 1)) ctxNegXAfter rfl

/-- C4: the claim says that when `{` opens a compound and end-of-input comes
before the matching `}`, parseStatement terminates and fails. In the code it
diverges instead: at the end-of-input token the statement loop's NULL check
tests the freshly allocated CompoundNode rather than the parsed statement,
and the intended end-of-input check sits after a loop that only exits at `}`;
so on the stream of the source `{` parseStatement exhausts every fuel. -/
theorem parseStatement_unclosed_compound (fuel : Nat) :
    parseStatement fuel ctxBraceEof = .noFuel :=
  parseStatement_braceEof fuel

/-- Counterexample for C5: parsing `f(,);` succeeds — the parser does not
reject a comma directly after `(` — and the resulting Call node's argument
list is two NULL placeholder slots, which `callArgsOk` detects. -/
theorem call_args_null_slots_cex :
    parse 40 toksCallEmptySlots =
      .res (some astCallEmptySlots) ⟨toksCallEmptySlots, 5, mkEof 5⟩ ∧
    callArgsOk astCallEmptySlots = false :=
  ⟨rfl, rfl⟩

/-- C5 as amended: the parser accepts empty argument slots — a comma directly
after `(`, two consecutive commas, or a comma directly before `)` — and
records each empty slot as a NULL placeholder in the Call node's argument
list, as here on `f(x,,y);`, whose call parses to arguments
`[x, NULL, y]`. -/
theorem call_args_null_slot_mid :
    parse 40 toksCallMidSlot =
      .res (some astCallMidSlot) ⟨toksCallMidSlot, 8, mkEof 8⟩ :=
  rfl

/-- Counterexample for C6: `parse` does not return a root node for every
token stream — on the stream of the source `{` (an unclosed compound) it
inherits the divergence of parseStatement and exhausts every fuel. -/
theorem parse_diverges_unclosed_brace : parseNeverReturns toksBraceEof :=
  parse_braceEof

/-- C6 as amended: whenever `parse` returns, the root is a Compound whose
top-level statement slots are all real statements, and the run ended either
at the end-of-input token or at the first failing statement (a state in which
parseStatement fails), the statements parsed before the failure having been
kept; on `x; )` the result is the Compound holding exactly `x`. -/
theorem parse_root_compound_truncation :
    (∀ fuel tokens r c, parse fuel tokens = .res r c →
      (∃ stmts, r = some (.NT_COMPOUND stmts) ∧ ∀ x ∈ stmts, x ≠ none) ∧
      (c.current.type = .TT_EOF ∨
        ∃ f2 cPre, parseStatement f2 cPre = .res none c)) ∧
    parse 40 toksTrunc =
      .res (some (.NT_COMPOUND [some (.NT_VARACCESS (mkId "x" 0))])) ctxTrunc := by
  constructor
  · intro fuel tokens r c h
    simp only [parse] at h
    rcases htl : parseTopLoop fuel [] ⟨tokens, 0, tokens.getD 0 noTok⟩ with ⟨stmts, c2⟩ | _
    · rw [htl] at h
      injection h with h1 h2
      rcases parseTopLoop_shape fuel [] _ stmts c2 htl with ⟨⟨tail, htail, hsome⟩, hstop⟩
      subst h2
      refine ⟨⟨stmts, h1.symm, ?_⟩, hstop⟩
      intro x hx
      exact hsome x (by simpa [htail] using hx)
    · rw [htl] at h; exact absurd h (by simp)
  · rfl

/-- Witness for C6 at the run on `x; )`: the returned root is that Compound
with no NULL top-level slot, and the final state is one where parseStatement
fails (the truncation point), not end-of-input. -/
theorem parse_root_compound_truncation_witness :
    (∃ stmts,
        (some (Node.NT_COMPOUND [some (.NT_VARACCESS (mkId "x" 0))]) : Option Node) =
          some (.NT_COMPOUND stmts) ∧ ∀ x ∈ stmts, x ≠ none) ∧
    (ctxTrunc.current.type = .TT_EOF ∨
      ∃ f2 cPre, parseStatement f2 cPre = .res none ctxTrunc) :=
  parse_root_compound_truncation.1 40 toksTrunc _ ctxTrunc rfl

/-- C7: maximal munch on multi-character operators: `<<=` lexes as the single
LSHEQ token, `->` as the single ARROW token, and `...` as the single ELLIPSIS
token, each followed only by the end-of-input sentinel. -/
theorem maximal_munch_ops :
    tokenize 10 (some "<<=".data) (some "f".data) =
      .ok [opTok .TT_LSHEQ 0 1 1 3, mkEof 3] ∧
    tokenize 10 (some "->".data) (some "f".data) =
      .ok [opTok .TT_ARROW 0 1 1 2, mkEof 2] ∧
    tokenize 10 (some "...".data) (some "f".data) =
      .ok [opTok .TT_ELLIPSIS 0 1 1 3, mkEof 3] := by
  refine ⟨by decide, by decide, by decide⟩

/-- C8: lexing the 10-byte source `"hi\n\x41"` yields exactly one string
token plus the end-of-input sentinel, and the string token's decoded value is
the four bytes `h`, `i`, newline (0x0A), `A` (0x41). -/
theorem string_escape_decode :
    tokenize 20 (some srcEsc) (some "f".data) =
      .ok [⟨.TT_STRING, some ['h', 'i', charNL, 'A'], 0, 1, 1, 10⟩, mkEof 10] := by
  decide

/-- Counterexample for C9: the lone string token of the source `"hi"` (two
bytes between the quotes) has recorded length 4 — the span from opening to
closing quote inclusive — not the 2 that a length excluding the surrounding
quotes would give. -/
theorem string_token_len_cex :
    tokenize 20 (some srcHi) (some "f".data) = .ok [strHiTok, mkEof 4] ∧
    strHiTok.len = 4 ∧ ¬ strHiTok.len = 2 :=
  ⟨by decide, rfl, by decide⟩

/-- C10: tokenize called with a NULL source pointer or a NULL file-name
pointer returns NULL immediately, before reading any input byte or emitting
any token, for any fuel. -/
theorem tokenize_null_arguments (fuel : Nat) (source file : Option (List Char))
    (h : source = none ∨ file = none) : tokenize fuel source file = .err := by
  rcases h with h | h
  · subst h; cases file <;> rfl
  · subst h; cases source <;> rfl

/-- Witness for C10 at a NULL source pointer. -/
theorem tokenize_null_arguments_witness :
    tokenize 5 none (some "f".data) = .err :=
  tokenize_null_arguments 5 none (some "f".data) (Or.inl rfl)
theorem hexScan_ge (s : List Char) :
    ∀ budget i acc, i ≤ (hexScan s i budget acc).1 := by
  intro budget
  induction budget with
  | zero => intro i acc; simp [hexScan]
  | succ b ih =>
    intro i acc
    simp only [hexScan]
    split
    · exact le_trans (by omega) (ih (i + 1) _)
    · simp

theorem octScan_ge (s : List Char) :
    ∀ budget i acc, i ≤ (octScan s i budget acc).1 := by
  intro budget
  induction budget with
  | zero => intro i acc; simp [octScan]
  | succ b ih =>
    intro i acc
    simp only [octScan]
    split
    · exact le_trans (by omega) (ih (i + 1) _)
    · simp

theorem handleEscapeSequence_bound (s : List Char) (i col : Nat) (v : List Char)
    (i2 col2 : Nat) (h : handleEscapeSequence s i col = some (v, i2, col2)) :
    i + 2 ≤ i2 := by
  simp only [handleEscapeSequence] at h
  split_ifs at h with h1 hx hr hd hr2
  all_goals split at h
  all_goals try cases h
  all_goals
    first
      | omega
      | (have hg := hexScan_ge s 8 (i + 1 + 1) 0; omega)
      | (have hg := octScan_ge s 3 (i + 1) 0; omega)

theorem strScan_done (s : List Char) :
    ∀ fuel i col acc v j colj, strScan fuel s i col acc = .sDone v j colj →
      getc s j = charQuote ∧ i ≤ j := by
  intro fuel
  induction fuel with
  | zero => intro i col acc v j colj h; exact absurd h (by simp [strScan])
  | succ fuel ih =>
    intro i col acc v j colj h
    simp only [strScan] at h
    split_ifs at h with h1 h2 h3
    · cases h
      exact ⟨h2, le_refl i⟩
    · rcases hesc : handleEscapeSequence s i col with _ | ⟨v2, i3, col3⟩
      · rw [hesc] at h; cases h
      · rw [hesc] at h
        simp only at h
        obtain ⟨hq, hle⟩ := ih _ _ _ _ _ _ h
        have := handleEscapeSequence_bound s i col v2 i3 col3 hesc
        exact ⟨hq, by omega⟩
    · obtain ⟨hq, hle⟩ := ih _ _ _ _ _ _ h
      exact ⟨hq, by omega⟩

theorem goodOfNe {s : List Char} {t : Token} (h1 : t.type ≠ .TT_STRING)
    (h2 : t.type ≠ .TT_CHAR) : GoodTok s t :=
  ⟨fun h => absurd h h1, fun h => absurd h h2⟩

theorem goodTok_append {s : List Char} {acc : List Token} {tok : Token}
    (hacc : ∀ t ∈ acc, GoodTok s t) (htok : GoodTok s tok) :
    ∀ t ∈ acc ++ [tok], GoodTok s t := by
  intro t ht
  rcases List.mem_append.1 ht with h | h
  · exact hacc t h
  · rw [List.mem_singleton.1 h]; exact htok

theorem good_string_tok {s v : List Char} {i col fuel j colj line : Nat}
    (hq : getc s i = charQuote)
    (hscan : strScan fuel s (i + 1) (col + 1) [] = .sDone v j colj) :
    GoodTok s ⟨.TT_STRING, some v, i, line, col, j + 1 - i⟩ := by
  obtain ⟨hqj, hij⟩ := strScan_done s fuel (i + 1) (col + 1) [] v j colj hscan
  constructor
  · intro _
    refine ⟨hq, ?_, ?_⟩
    · show getc s (i + (j + 1 - i) - 1) = charQuote
      have he : i + (j + 1 - i) - 1 = j := by omega
      rw [he]; exact hqj
    · show 2 ≤ j + 1 - i
      omega
  · intro hty
    exact nomatch hty

theorem good_char_esc_tok {s v : List Char} {i col i2 col2 line : Nat}
    (ha : getc s i = charApos)
    (hesc : handleEscapeSequence s (i + 1) (col + 1) = some (v, i2, col2))
    (hclose : getc s i2 = charApos) :
    GoodTok s ⟨.TT_CHAR, some v, i, line, col, i2 + 1 - i⟩ := by
  have hb := handleEscapeSequence_bound s (i + 1) (col + 1) v i2 col2 hesc
  constructor
  · intro hty
    exact nomatch hty
  · intro _
    refine ⟨ha, ?_, ?_⟩
    · show getc s (i + (i2 + 1 - i) - 1) = charApos
      have he : i + (i2 + 1 - i) - 1 = i2 := by omega
      rw [he]; exact hclose
    · show 2 ≤ i2 + 1 - i
      omega

theorem good_char_plain_tok {s : List Char} {i col line : Nat}
    (ha : getc s i = charApos)
    (hclose : getc s (i + 1 + 1) = charApos) :
    GoodTok s ⟨.TT_CHAR, some [getc s (i + 1)], i, line, col, i + 1 + 2 - i⟩ := by
  constructor
  · intro hty
    exact nomatch hty
  · intro _
    refine ⟨ha, ?_, ?_⟩
    · show getc s (i + (i + 1 + 2 - i) - 1) = charApos
      have he : i + (i + 1 + 2 - i) - 1 = i + 1 + 1 := by omega
      rw [he]; exact hclose
    · show 2 ≤ i + 1 + 2 - i
      omega

theorem numberTail_not_ok (fuel : Nat) (s : List Char) (i line col : Nat)
    (acc ts : List Token) : numberTail fuel s i line col acc ≠ .ok ts := by
  intro h
  simp only [numberTail] at h
  rcases hn : numScan fuel s i false with ⟨i2, hd⟩ | _ | _ <;> rw [hn] at h <;>
    simp only at h <;> cases h

set_option linter.unusedTactic false in
set_option maxHeartbeats 4000000 in
theorem tokLoop_good (s : List Char) :
    ∀ fuel i line col acc ts, tokLoop fuel s i line col acc = .ok ts →
      (∀ t ∈ acc, GoodTok s t) → ∀ t ∈ ts, GoodTok s t := by
  intro fuel
  induction fuel with
  | zero => intro i line col acc ts h; exact absurd h (by simp [tokLoop])
  | succ fuel ih =>
    intro i line col acc ts h hacc
    simp only [tokLoop] at h
    by_cases hc1 : getc s i = charNul
    · rw [if_pos hc1] at h
      cases h
      exact goodTok_append hacc (goodOfNe (fun hty => nomatch hty) (fun hty => nomatch hty))
    · rw [if_neg hc1] at h
      by_cases hc2 : getc s i = Char.ofNat 9 ∨ getc s i = Char.ofNat 13 ∨ getc s i = ' '
      · rw [if_pos hc2] at h
        exact ih _ _ _ _ _ h hacc
      · rw [if_neg hc2] at h
        by_cases hc3 : getc s i = charNL
        · rw [if_pos hc3] at h
          exact ih _ _ _ _ _ h hacc
        · rw [if_neg hc3] at h
          by_cases hc4 : getc s i = '+'
          · rw [if_pos hc4] at h
            (try split_ifs at h)
            all_goals exact ih _ _ _ _ _ h (goodTok_append hacc (goodOfNe (fun hty => nomatch hty) (fun hty => nomatch hty)))
          · rw [if_neg hc4] at h
            by_cases hc5 : getc s i = '-'
            · rw [if_pos hc5] at h
              (try split_ifs at h)
              all_goals exact ih _ _ _ _ _ h (goodTok_append hacc (goodOfNe (fun hty => nomatch hty) (fun hty => nomatch hty)))
            · rw [if_neg hc5] at h
              by_cases hc6 : getc s i = '*'
              · rw [if_pos hc6] at h
                (try split_ifs at h)
                all_goals exact ih _ _ _ _ _ h (goodTok_append hacc (goodOfNe (fun hty => nomatch hty) (fun hty => nomatch hty)))
              · rw [if_neg hc6] at h
                by_cases hc7 : getc s i = '/'
                · rw [if_pos hc7] at h
                  split_ifs at h
                  all_goals try split at h
                  all_goals try cases h
                  all_goals first
                    | exact ih _ _ _ _ _ h hacc
                    | exact ih _ _ _ _ _ h (goodTok_append hacc (goodOfNe (fun hty => nomatch hty) (fun hty => nomatch hty)))
                · rw [if_neg hc7] at h
                  by_cases hc8 : getc s i = '%'
                  · rw [if_pos hc8] at h
                    (try split_ifs at h)
                    all_goals exact ih _ _ _ _ _ h (goodTok_append hacc (goodOfNe (fun hty => nomatch hty) (fun hty => nomatch hty)))
                  · rw [if_neg hc8] at h
                    by_cases hc9 : getc s i = '<'
                    · rw [if_pos hc9] at h
                      (try split_ifs at h)
                      all_goals exact ih _ _ _ _ _ h (goodTok_append hacc (goodOfNe (fun hty => nomatch hty) (fun hty => nomatch hty)))
                    · rw [if_neg hc9] at h
                      by_cases hc10 : getc s i = '>'
                      · rw [if_pos hc10] at h
                        (try split_ifs at h)
                        all_goals exact ih _ _ _ _ _ h (goodTok_append hacc (goodOfNe (fun hty => nomatch hty) (fun hty => nomatch hty)))
                      · rw [if_neg hc10] at h
                        by_cases hc11 : getc s i = '~'
                        · rw [if_pos hc11] at h
                          (try split_ifs at h)
                          all_goals exact ih _ _ _ _ _ h (goodTok_append hacc (goodOfNe (fun hty => nomatch hty) (fun hty => nomatch hty)))
                        · rw [if_neg hc11] at h
                          by_cases hc12 : getc s i = '^'
                          · rw [if_pos hc12] at h
                            (try split_ifs at h)
                            all_goals exact ih _ _ _ _ _ h (goodTok_append hacc (goodOfNe (fun hty => nomatch hty) (fun hty => nomatch hty)))
                          · rw [if_neg hc12] at h
                            by_cases hc13 : getc s i = charBacktick
                            · rw [if_pos hc13] at h
                              (try split_ifs at h)
                              all_goals exact ih _ _ _ _ _ h (goodTok_append hacc (goodOfNe (fun hty => nomatch hty) (fun hty => nomatch hty)))
                            · rw [if_neg hc13] at h
                              by_cases hc14 : getc s i = '&'
                              · rw [if_pos hc14] at h
                                (try split_ifs at h)
                                all_goals exact ih _ _ _ _ _ h (goodTok_append hacc (goodOfNe (fun hty => nomatch hty) (fun hty => nomatch hty)))
                              · rw [if_neg hc14] at h
                                by_cases hc15 : getc s i = '|'
                                · rw [if_pos hc15] at h
                                  (try split_ifs at h)
                                  all_goals exact ih _ _ _ _ _ h (goodTok_append hacc (goodOfNe (fun hty => nomatch hty) (fun hty => nomatch hty)))
                                · rw [if_neg hc15] at h
                                  by_cases hc16 : getc s i = '='
                                  · rw [if_pos hc16] at h
                                    (try split_ifs at h)
                                    all_goals exact ih _ _ _ _ _ h (goodTok_append hacc (goodOfNe (fun hty => nomatch hty) (fun hty => nomatch hty)))
                                  · rw [if_neg hc16] at h
                                    by_cases hc17 : getc s i = '!'
                                    · rw [if_pos hc17] at h
                                      (try split_ifs at h)
                                      all_goals exact ih _ _ _ _ _ h (goodTok_append hacc (goodOfNe (fun hty => nomatch hty) (fun hty => nomatch hty)))
                                    · rw [if_neg hc17] at h
                                      by_cases hc18 : getc s i = '('
                                      · rw [if_pos hc18] at h
                                        (try split_ifs at h)
                                        all_goals exact ih _ _ _ _ _ h (goodTok_append hacc (goodOfNe (fun hty => nomatch hty) (fun hty => nomatch hty)))
                                      · rw [if_neg hc18] at h
                                        by_cases hc19 : getc s i = ')'
                                        · rw [if_pos hc19] at h
                                          (try split_ifs at h)
                                          all_goals exact ih _ _ _ _ _ h (goodTok_append hacc (goodOfNe (fun hty => nomatch hty) (fun hty => nomatch hty)))
                                        · rw [if_neg hc19] at h
                                          by_cases hc20 : getc s i = charLBrace
                                          · rw [if_pos hc20] at h
                                            (try split_ifs at h)
                                            all_goals exact ih _ _ _ _ _ h (goodTok_append hacc (goodOfNe (fun hty => nomatch hty) (fun hty => nomatch hty)))
                                          · rw [if_neg hc20] at h
                                            by_cases hc21 : getc s i = charRBrace
                                            · rw [if_pos hc21] at h
                                              (try split_ifs at h)
                                              all_goals exact ih _ _ _ _ _ h (goodTok_append hacc (goodOfNe (fun hty => nomatch hty) (fun hty => nomatch hty)))
                                            · rw [if_neg hc21] at h
                                              by_cases hc22 : getc s i = '['
                                              · rw [if_pos hc22] at h
                                                (try split_ifs at h)
                                                all_goals exact ih _ _ _ _ _ h (goodTok_append hacc (goodOfNe (fun hty => nomatch hty) (fun hty => nomatch hty)))
                                              · rw [if_neg hc22] at h
                                                by_cases hc23 : getc s i = ']'
                                                · rw [if_pos hc23] at h
                                                  (try split_ifs at h)
                                                  all_goals exact ih _ _ _ _ _ h (goodTok_append hacc (goodOfNe (fun hty => nomatch hty) (fun hty => nomatch hty)))
                                                · rw [if_neg hc23] at h
                                                  by_cases hc24 : getc s i = ';'
                                                  · rw [if_pos hc24] at h
                                                    (try split_ifs at h)
                                                    all_goals exact ih _ _ _ _ _ h (goodTok_append hacc (goodOfNe (fun hty => nomatch hty) (fun hty => nomatch hty)))
                                                  · rw [if_neg hc24] at h
                                                    by_cases hc25 : getc s i = ':'
                                                    · rw [if_pos hc25] at h
                                                      (try split_ifs at h)
                                                      all_goals exact ih _ _ _ _ _ h (goodTok_append hacc (goodOfNe (fun hty => nomatch hty) (fun hty => nomatch hty)))
                                                    · rw [if_neg hc25] at h
                                                      by_cases hc26 : getc s i = '.'
                                                      · rw [if_pos hc26] at h
                                                        split_ifs at h
                                                        all_goals first
                                                          | exact absurd h (numberTail_not_ok _ _ _ _ _ _ _)
                                                          | exact ih _ _ _ _ _ h (goodTok_append hacc (goodOfNe (fun hty => nomatch hty) (fun hty => nomatch hty)))
                                                      · rw [if_neg hc26] at h
                                                        by_cases hc27 : getc s i = ','
                                                        · rw [if_pos hc27] at h
                                                          (try split_ifs at h)
                                                          all_goals exact ih _ _ _ _ _ h (goodTok_append hacc (goodOfNe (fun hty => nomatch hty) (fun hty => nomatch hty)))
                                                        · rw [if_neg hc27] at h
                                                          by_cases hc28 : getc s i = charApos
                                                          · rw [if_pos hc28] at h
                                                            split_ifs at h
                                                            all_goals try split at h
                                                            all_goals try split_ifs at h
                                                            all_goals try cases h
                                                            all_goals first
                                                              | exact ih _ _ _ _ _ h (goodTok_append hacc (good_char_esc_tok hc28 (by assumption) (by assumption)))
                                                              | exact ih _ _ _ _ _ h (goodTok_append hacc (good_char_plain_tok hc28 (by assumption)))
                                                          · rw [if_neg hc28] at h
                                                            by_cases hc29 : getc s i = charQuote
                                                            · rw [if_pos hc29] at h
                                                              split at h
                                                              all_goals try cases h
                                                              all_goals exact ih _ _ _ _ _ h (goodTok_append hacc (good_string_tok hc29 (by assumption)))
                                                            · rw [if_neg hc29] at h
                                                              by_cases hc30 : isalphaC (getc s i) ∨ getc s i = '_'
                                                              · rw [if_pos hc30] at h
                                                                split at h
                                                                all_goals try cases h
                                                                all_goals try split_ifs at h
                                                                all_goals exact ih _ _ _ _ _ h (goodTok_append hacc (goodOfNe (fun hty => nomatch hty) (fun hty => nomatch hty)))
                                                              · rw [if_neg hc30] at h
                                                                by_cases hc31 : isdigitC (getc s i) ∨ getc s i = '.'
                                                                · rw [if_pos hc31] at h
                                                                  exact absurd h (numberTail_not_ok _ _ _ _ _ _ _)
                                                                · rw [if_neg hc31] at h
                                                                  cases h

/-- C9 as amended: for every string or character literal token emitted by a
successful lex, the token's recorded length includes the surrounding quote
characters — the token's source span from `index` to `index + len − 1`
begins at the opening quote byte and ends at the closing quote byte, so
`len ≥ 2` — while the token's value holds the decoded payload. -/
theorem string_char_token_span (fuel : Nat) (s f : List Char) (ts : List Token)
    (h : tokenize fuel (some s) (some f) = .ok ts) :
    ∀ t ∈ ts, GoodTok s t :=
  tokLoop_good s fuel 0 1 1 [] ts h (by simp)

/-- Witness for C9 at the successful lex of `"hi"`: the string token spans
from the opening to the closing quote, with length 4. -/
theorem string_char_token_span_witness : GoodTok srcHi strHiTok :=
  string_char_token_span 20 srcHi "f".data [strHiTok, mkEof 4] (by decide) strHiTok
    (by simp)
